import Mathlib

/-!
# Glofox booking service: class creation and booking

A shallow embedding of the service layer (`internal/service`), the map store
(`core/mapStor.go`) and the data model (`models/dto`, `errors`), followed by the
properties established about them.

Modelling conventions.

* `time.Time` values are the wall-clock instant in nanoseconds since the zero time
  (January 1, year 1, 00:00:00 UTC) together with the location. `Before`, `After`,
  `Sub` and `Truncate` look at the instant only; equality (what the `Bookings` map
  uses for its keys) looks at both. No monotonic clock reading is carried: the times
  the service handles come out of `time.Parse`, which never sets one.
* `time.Parse` belongs to the Go standard library; the service functions take it as
  the parameter `parse`, called with the configured layout and the request string.
* The store is passed explicitly: each service function takes the store before the
  call and returns the error (`none` for Go `nil`) and the store after the call.
  `lock.Lock()` and its deferred `Unlock()` have no effect on a single call.
* Go maps are total lookups with the zero value for a missing key: the store is a
  function to `Option` (the `ok` flag of `Load`), a `Bookings` map is a function to
  lists with `[]` for a date nobody booked. A record carries an allocated `Bookings`
  map, as every record built by `CreateClass` does. In Go the copy of a record made
  by `CreateBooking` shares that map with the stored record; the copy is written
  back under the same key right after the append and no error return lies between
  the two, so the store before and after a call is described by values. No two
  stored records share a `Bookings` map: each `CreateClass` makes a new one.
* The store holds `dto.ClassInfo` values only (the two service functions store
  nothing else), so the type assertion of `CreateBooking` always succeeds.
-/

namespace Glofox

/-! ## Time -/

/-- A `time.Duration`: a signed number of nanoseconds. -/
abbrev Duration := Int

/-- The constant `time.Hour`. -/
def Hour : Duration := 3600000000000

/-- Smallest `time.Duration` (the int64 minimum). -/
def minDuration : Duration := -(2 ^ 63)

/-- Largest `time.Duration` (the int64 maximum). -/
def maxDuration : Duration := 2 ^ 63 - 1

/-- A `time.Time`: nanoseconds since the zero time, and the location (0 is UTC). -/
structure Time where
  ns : Int
  loc : Nat
deriving DecidableEq, Repr

namespace Time

/-- The zero value `time.Time{}`: January 1, year 1, 00:00:00 UTC. -/
def zero : Time := ⟨0, 0⟩

/-- The method `t.Before(u)`: the instant `t` is strictly earlier than `u`. -/
def Before (t u : Time) : Bool := decide (t.ns < u.ns)

/-- The method `t.After(u)`: the instant `t` is strictly later than `u`. -/
def After (t u : Time) : Bool := decide (t.ns > u.ns)

/-- The method `t.Sub(u)`: the duration `t - u`, saturated to the range of
`time.Duration`. -/
def Sub (t u : Time) : Duration :=
  let d := t.ns - u.ns
  if d < minDuration then minDuration
  else if d > maxDuration then maxDuration
  else d

/-- The method `t.Truncate(d)`: `t` rounded down to a multiple of `d` since the zero
time; `t` itself when `d <= 0`. The location is kept. -/
def Truncate (t : Time) (d : Duration) : Time :=
  if d ≤ 0 then t else { t with ns := t.ns - t.ns % d }

end Time

/-- The method `d.Hours()`: whole hours plus the remaining nanoseconds as a fraction
of an hour. Go computes the sum in float64; the exact rational is used here, which
has the same sign. -/
def Duration.Hours (d : Duration) : ℚ :=
  let hour := Int.tdiv d Hour
  let nsec := Int.tmod d Hour
  (hour : ℚ) + (nsec : ℚ) / (60 * 60 * 1000000000)

/-- The error type `*time.ParseError` returned by `time.Parse`. -/
structure ParseError where
  Layout : String
  Value : String
  LayoutElem : String
  ValueElem : String
  Message : String
deriving DecidableEq, Repr

/-! ## Errors, configuration and data model -/

/-- The error values of package `newError`, and a parse error of `time.Parse`
handed on unchanged. -/
inductive Error where
  | Parse (err : ParseError)
  | ErrUnmarshalling
  | ErrCreatingBooking
  | ErrClassNotExist
  | ErrBookingDatePassed
  | ErrSlotsFullForTheDate
  | ErrEndTimeLessThanStartTime
deriving DecidableEq, Repr

/-- The struct `config.Config`. -/
structure Config where
  DateFormat : String
  BaseRoute : String := ""
  Port : String := ""
deriving DecidableEq, Repr

/-- The request struct `dto.Class`. -/
structure Class where
  Name : String
  Capacity : Int
  StartDate : String
  EndDate : String
deriving DecidableEq, Repr

/-- The stored struct `dto.ClassInfo`. A field left out of a literal takes the Go
zero value. -/
structure ClassInfo where
  AllowedCapacity : Int := 0
  StartDate : Time := Time.zero
  EndDate : Time := Time.zero
  Bookings : Time → List String := fun _ => []

/-- The request struct `dto.BookingInfo`. -/
structure BookingInfo where
  ClassName : String
  UserName : String
  BookingDate : String
deriving DecidableEq, Repr

/-! ## The map store -/

/-- The struct `muMapStore`: a Go map from string keys to values. -/
structure muMapStore (α : Type) where
  mapStore : String → Option α

namespace muMapStore

variable {α : Type}

/-- The map `make(map[string]interface{})` a new store starts with. -/
def empty : muMapStore α := ⟨fun _ => none⟩

/-- The method `Store`: `r.mapStore[key] = value`. -/
def Store (r : muMapStore α) (key : String) (value : α) : muMapStore α :=
  ⟨fun k => if k = key then some value else r.mapStore k⟩

/-- The method `Load`: `val, ok := r.mapStore[key]`. -/
def Load (r : muMapStore α) (key : String) : Option α :=
  r.mapStore key

/-- The method `Delete`: `delete(r.mapStore, key)`. -/
def Delete (r : muMapStore α) (key : String) : muMapStore α :=
  ⟨fun k => if k = key then none else r.mapStore k⟩

end muMapStore

/-- The map write `m[key] = value` on a `Bookings` map. -/
def setBookings (m : Time → List String) (key : Time) (value : List String) :
    Time → List String :=
  fun k => if k = key then value else m k

/-! ## The service -/

/-- The method `CreateClass` of `classService.go`. -/
def CreateClass (parse : String → String → Except ParseError Time) (cfg : Config)
    (syMap : muMapStore ClassInfo) (info : Class) : Option Error × muMapStore ClassInfo :=
  match parse cfg.DateFormat info.StartDate with
  | .error err => (some (.Parse err), syMap)
  | .ok startDate =>
    match parse cfg.DateFormat info.EndDate with
    | .error err => (some (.Parse err), syMap)
    | .ok endDate =>
      let hrs := Duration.Hours (endDate.Sub startDate)
      if hrs < 0 then (some .ErrEndTimeLessThanStartTime, syMap)
      else
        let classInfo : ClassInfo :=
          { AllowedCapacity := info.Capacity
            EndDate := endDate.Truncate (24 * Hour)
            Bookings := fun _ => [] }
        (none, syMap.Store info.Name classInfo)

/-- The method `CreateBooking` of `bookingService.go`. -/
def CreateBooking (parse : String → String → Except ParseError Time) (cfg : Config)
    (syMap : muMapStore ClassInfo) (bookingInfo : BookingInfo) :
    Option Error × muMapStore ClassInfo :=
  match parse cfg.DateFormat bookingInfo.BookingDate with
  | .error err => (some (.Parse err), syMap)
  | .ok bookingDate =>
    match syMap.Load bookingInfo.ClassName with
    | none => (some .ErrClassNotExist, syMap)
    | some typeCastData =>
      if bookingDate.Before typeCastData.StartDate then
        (some .ErrBookingDatePassed, syMap)
      else if bookingDate.After typeCastData.EndDate then
        (some .ErrBookingDatePassed, syMap)
      else if ((typeCastData.Bookings bookingDate).length : Int)
          ≥ typeCastData.AllowedCapacity then
        (some .ErrSlotsFullForTheDate, syMap)
      else
        let typeCastData : ClassInfo :=
          { typeCastData with
            Bookings := setBookings typeCastData.Bookings bookingDate
              (typeCastData.Bookings bookingDate ++ [bookingInfo.UserName]) }
        (none, syMap.Store bookingInfo.ClassName typeCastData)

/-! ## Sequences of calls -/

/-- One call on the service: `CreateClass` or `CreateBooking` with its request. -/
inductive Call where
  | createClass (info : Class)
  | createBooking (bookingInfo : BookingInfo)
deriving DecidableEq, Repr

/-- The store a call leaves behind, whether it returned an error or not. -/
def applyCall (parse : String → String → Except ParseError Time) (cfg : Config)
    (syMap : muMapStore ClassInfo) : Call → muMapStore ClassInfo
  | .createClass info => (CreateClass parse cfg syMap info).2
  | .createBooking bookingInfo => (CreateBooking parse cfg syMap bookingInfo).2

/-- The store after a finite sequence of calls, made one after the other. -/
def runCalls (parse : String → String → Except ParseError Time) (cfg : Config)
    (syMap : muMapStore ClassInfo) (calls : List Call) : muMapStore ClassInfo :=
  calls.foldl (applyCall parse cfg) syMap

/-- A `CreateClass` call asks for a positive capacity; nothing is asked of a
`CreateBooking` call. -/
def Call.positiveCapacity : Call → Prop
  | .createClass info => 0 < info.Capacity
  | .createBooking _ => True

/-! ## Sample data

Concrete dates, a fragment of `time.Parse` and two configurations, for the examples. -/

/-- Days from January 1 of year 1 to January 1 of `year` (Gregorian, `year >= 1`). -/
def daysBeforeYear (year : Int) : Int :=
  365 * (year - 1) + (year - 1) / 4 - (year - 1) / 100 + (year - 1) / 400

/-- Whether `year` is a Gregorian leap year. -/
def isLeap (year : Int) : Bool :=
  year % 4 = 0 && (year % 100 != 0 || year % 400 = 0)

/-- Days from January 1 to the first of `month` in a year (1 is January). -/
def daysBeforeMonth (year month : Int) : Int :=
  let table : List Int := [0, 31, 59, 90, 120, 151, 181, 212, 243, 273, 304, 334]
  table.getD (month - 1).toNat 0 + (if isLeap year && month > 2 then 1 else 0)

/-- The time `time.Date(year, month, day, hour, min, 0, 0, time.UTC)` for a valid
calendar date of year 1 or later. -/
def Date (year month day hour min : Int) : Time :=
  ⟨(daysBeforeYear year + daysBeforeMonth year month + (day - 1)) * (24 * Hour)
      + hour * Hour + min * (Hour / 60), 0⟩

/-- What `time.Parse` returns on the layouts and strings of the examples: layout
`2006-01-02` (dates at midnight UTC) and layout `2006-01-02 15:04` (date and time
of day, UTC). Every other argument is reported as a parse error here. -/
def sampleParse (layout value : String) : Except ParseError Time :=
  if layout = "2006-01-02" then
    if value = "2025-05-01" then .ok (Date 2025 5 1 0 0)
    else if value = "2025-06-01" then .ok (Date 2025 6 1 0 0)
    else if value = "2025-06-05" then .ok (Date 2025 6 5 0 0)
    else if value = "2025-06-10" then .ok (Date 2025 6 10 0 0)
    else .error ⟨layout, value, "", "", ""⟩
  else if layout = "2006-01-02 15:04" then
    if value = "2025-06-01 09:00" then .ok (Date 2025 6 1 9 0)
    else if value = "2025-06-10 12:00" then .ok (Date 2025 6 10 12 0)
    else if value = "2025-06-10 18:00" then .ok (Date 2025 6 10 18 0)
    else .error ⟨layout, value, "", "", ""⟩
  else .error ⟨layout, value, "", "", ""⟩

/-- The configuration of the tests: dates without a time of day. -/
def cfgDate : Config := { DateFormat := "2006-01-02" }

/-- A configuration whose date format carries a time of day. -/
def cfgMinute : Config := { DateFormat := "2006-01-02 15:04" }

/-- The request of the scenario: class Yoga, capacity 5, June 1 to June 10, 2025. -/
def yoga : Class :=
  { Name := "Yoga", Capacity := 5, StartDate := "2025-06-01", EndDate := "2025-06-10" }

/-- The record of the test `TestCreateBooking_SlotsFullForTheDate`: one slot, taken
on June 5, 2025. -/
def fullRecord : ClassInfo :=
  { AllowedCapacity := 1
    StartDate := Date 2025 6 1 0 0
    EndDate := Date 2025 6 10 0 0
    Bookings := setBookings (fun _ => []) (Date 2025 6 5 0 0) ["existing_user"] }

/-- A record with room: five slots, one taken on June 5, 2025. -/
def openRecord : ClassInfo :=
  { AllowedCapacity := 5
    StartDate := Date 2025 6 1 0 0
    EndDate := Date 2025 6 10 0 0
    Bookings := setBookings (fun _ => []) (Date 2025 6 5 0 0) ["existing_user"] }

/-- A record whose end date lies before its start date. -/
def emptyWindowRecord : ClassInfo :=
  { AllowedCapacity := 5
    StartDate := Date 2025 6 10 0 0
    EndDate := Date 2025 6 1 0 0 }

/-- The scenario class under a format with a time of day: June 1, 09:00 to June 10,
18:00. -/
def yogaMinute : Class :=
  { Name := "Yoga", Capacity := 5, StartDate := "2025-06-01 09:00",
    EndDate := "2025-06-10 18:00" }

/-- A run on a class with a single slot: the class is created, `john` books June 5,
then `jane` asks for the same day. -/
def sampleCalls : List Call :=
  [ .createClass ⟨"Yoga", 1, "2025-06-01", "2025-06-10"⟩,
    .createBooking ⟨"Yoga", "john", "2025-06-05"⟩,
    .createBooking ⟨"Yoga", "jane", "2025-06-05"⟩ ]

/-- The capacity bound on a store: every stored record has, on every date, at most
`AllowedCapacity` user names booked. -/
def withinCapacity (syMap : muMapStore ClassInfo) : Prop :=
  ∀ (name : String) (r : ClassInfo), syMap.Load name = some r →
    ∀ d : Time, ((r.Bookings d).length : Int) ≤ r.AllowedCapacity

/-! ## The service against the `MapStore` interface

The service holds its store as a value of the interface `MapStore`; the tests hand
it a mock that records the calls made on it. The two methods are given once more
here against any implementation of the interface, so that the calls a request makes
on its store can be counted. -/

/-- One call on the interface `MapStore`. -/
inductive StoreCall where
  | Load (key : String)
  | Store (key : String) (value : ClassInfo)
  | Delete (key : String)

/-- The interface `MapStore` of `core/mapStor.go`, implemented over a state `σ`:
every method takes the state before the call and gives the state after it. -/
structure MapStore (σ : Type) where
  Load : σ → String → Option ClassInfo × σ
  Store : σ → String → ClassInfo → σ
  Delete : σ → String → σ

/-- The implementation of `MapStore` by `muMapStore`. -/
def muMapStore.methods : MapStore (muMapStore ClassInfo) where
  Load := fun r key => (r.Load key, r)
  Store := fun r key value => r.Store key value
  Delete := fun r key => r.Delete key

/-- A map store that also keeps the list of calls made on it, oldest first. -/
structure recordingStore where
  store : muMapStore ClassInfo
  calls : List StoreCall

/-- The implementation of `MapStore` by `recordingStore`: every method appends its
call to the list and acts on the map. -/
def recordingStore.methods : MapStore recordingStore where
  Load := fun r key => (r.store.Load key, ⟨r.store, r.calls ++ [.Load key]⟩)
  Store := fun r key value => ⟨r.store.Store key value, r.calls ++ [.Store key value]⟩
  Delete := fun r key => ⟨r.store.Delete key, r.calls ++ [.Delete key]⟩

/-- The method `CreateClass` of `classService.go`, against an implementation `syMap`
of `MapStore` in state `st`. -/
def service.CreateClass {σ : Type} (syMap : MapStore σ)
    (parse : String → String → Except ParseError Time) (cfg : Config)
    (st : σ) (info : Class) : Option Error × σ :=
  match parse cfg.DateFormat info.StartDate with
  | .error err => (some (.Parse err), st)
  | .ok startDate =>
    match parse cfg.DateFormat info.EndDate with
    | .error err => (some (.Parse err), st)
    | .ok endDate =>
      let hrs := Duration.Hours (endDate.Sub startDate)
      if hrs < 0 then (some .ErrEndTimeLessThanStartTime, st)
      else
        let classInfo : ClassInfo :=
          { AllowedCapacity := info.Capacity
            EndDate := endDate.Truncate (24 * Hour)
            Bookings := fun _ => [] }
        (none, syMap.Store st info.Name classInfo)

/-- The method `CreateBooking` of `bookingService.go`, against an implementation
`syMap` of `MapStore` in state `st`. -/
def service.CreateBooking {σ : Type} (syMap : MapStore σ)
    (parse : String → String → Except ParseError Time) (cfg : Config)
    (st : σ) (bookingInfo : BookingInfo) : Option Error × σ :=
  match parse cfg.DateFormat bookingInfo.BookingDate with
  | .error err => (some (.Parse err), st)
  | .ok bookingDate =>
    match syMap.Load st bookingInfo.ClassName with
    | (none, st1) => (some .ErrClassNotExist, st1)
    | (some typeCastData, st1) =>
      if bookingDate.Before typeCastData.StartDate then
        (some .ErrBookingDatePassed, st1)
      else if bookingDate.After typeCastData.EndDate then
        (some .ErrBookingDatePassed, st1)
      else if ((typeCastData.Bookings bookingDate).length : Int)
          ≥ typeCastData.AllowedCapacity then
        (some .ErrSlotsFullForTheDate, st1)
      else
        let typeCastData : ClassInfo :=
          { typeCastData with
            Bookings := setBookings typeCastData.Bookings bookingDate
              (typeCastData.Bookings bookingDate ++ [bookingInfo.UserName]) }
        (none, syMap.Store st1 bookingInfo.ClassName typeCastData)

/-! ## Sequences of store operations -/

/-- One write on a map store: `Store(key, value)` or `Delete(key)`. -/
inductive MapOp (α : Type) where
  | store (key : String) (value : α)
  | delete (key : String)

/-- The store after one write. -/
def applyOp {α : Type} (r : muMapStore α) : MapOp α → muMapStore α
  | .store key value => r.Store key value
  | .delete key => r.Delete key

/-- The store after a sequence of writes, made one after the other. -/
def applyOps {α : Type} (r : muMapStore α) (ops : List (MapOp α)) : muMapStore α :=
  ops.foldl applyOp r

/-- Whether a sequence of writes holds a `Delete(k)`. -/
def deletes {α : Type} (ops : List (MapOp α)) (k : String) : Bool :=
  ops.any fun op =>
    match op with
    | .delete key => decide (key = k)
    | .store _ _ => false

/-- The finite-map reading of a sequence of writes, as the specification words it:
the value of the most recent `Store(k, v)` that is not followed by a `Delete(k)`,
and nothing when there is no such write. -/
def latestStore {α : Type} : List (MapOp α) → String → Option α
  | [], _ => none
  | .store key value :: rest, k =>
    match latestStore rest k with
    | some later => some later
    | none => if key = k ∧ deletes rest k = false then some value else none
  | .delete _ :: rest, k => latestStore rest k

/-- The struct `utils.Response`. -/
structure Response where
  Success : Bool
  Message : String
  Data : String := ""
deriving DecidableEq, Repr

/-- The function `utils.CreateResp`; `data` is its variadic argument. -/
def CreateResp (Success : Bool) (Message : String) (data : List String) : Response :=
  let res : Response := { Success := Success, Message := Message }
  if data.length > 0 then { res with Data := data.headD "" } else res

/-- The constant `http.StatusOK`. -/
def StatusOK : Nat := 200

/-- The constant `http.StatusBadRequest`. -/
def StatusBadRequest : Nat := 400

/-- The method `Error()` of an error value: the texts of `errors/errors.go`, and for
a parse error the text `parseText` that `*time.ParseError` gives it. -/
def errorText (parseText : ParseError → String) : Error → String
  | .Parse err => parseText err
  | .ErrUnmarshalling => "error while unamrshalling"
  | .ErrCreatingBooking => "Error while creating booking:"
  | .ErrClassNotExist => "Please Check Your Class Name"
  | .ErrBookingDatePassed => "booking for the mentioned date is not allowed for the class"
  | .ErrSlotsFullForTheDate => "booking full for the requested class on the mentioned date"
  | .ErrEndTimeLessThanStartTime => "class end date can not be less than start end date"

/-- The method `CreateBooking` of `bookingHandler.go`: the status code and response
handed to `c.JSON`, and the state the service is left in. -/
def bookingHandler.CreateBooking {β ε σ : Type}
    (ShouldBindJSON : β → Except ε BookingInfo)
    (businessService : BookingInfo → σ → Option Error × σ)
    (parseText : ParseError → String) (BookingSucces : String)
    (body : β) (st : σ) : (Nat × Response) × σ :=
  match ShouldBindJSON body with
  | .error _ =>
    ((StatusBadRequest, CreateResp false (errorText parseText .ErrUnmarshalling) []), st)
  | .ok bookingInfo =>
    match businessService bookingInfo st with
    | (some err, st1) =>
      ((StatusBadRequest, CreateResp false (errorText parseText err) []), st1)
    | (none, st1) => ((StatusOK, CreateResp true BookingSucces []), st1)

/-- The method `CreateClass` of `classHandler.go`: the status code and response
handed to `c.JSON`, and the state the service is left in. -/
def classHandler.CreateClass {β ε σ : Type}
    (ShouldBindJSON : β → Except ε Class)
    (businessService : Class → σ → Option Error × σ)
    (parseText : ParseError → String) (ClassSuccess : String)
    (body : β) (st : σ) : (Nat × Response) × σ :=
  match ShouldBindJSON body with
  | .error _ =>
    ((StatusBadRequest, CreateResp false (errorText parseText .ErrUnmarshalling) []), st)
  | .ok classData =>
    match businessService classData st with
    | (some err, st1) =>
      ((StatusBadRequest, CreateResp false (errorText parseText err) []), st1)
    | (none, st1) => ((StatusOK, CreateResp true ClassSuccess []), st1)

/-- A binding for the examples: a body either carries a request or is malformed. -/
def sampleBind {α : Type} (body : Option α) : Except String α :=
  match body with
  | some request => .ok request
  | none => .error "unexpected EOF"

/-- A text for parse errors, for the examples. -/
def sampleParseText (err : ParseError) : String :=
  "parsing time " ++ err.Value

/-- The window bound on a store: in every stored record, every date that holds a
booking lies between the `StartDate` and the `EndDate` of that record. -/
def withinWindow (syMap : muMapStore ClassInfo) : Prop :=
  ∀ (name : String) (r : ClassInfo), syMap.Load name = some r →
    ∀ d : Time, r.Bookings d ≠ [] → r.StartDate.ns ≤ d.ns ∧ d.ns ≤ r.EndDate.ns

/-! ## Auxiliary facts -/

/-- The day count of `Date` agrees with the Go constant `unixToInternal`: January 1,
1970 is 62135596800 seconds after the zero time. -/
theorem Date_unix_epoch : Date 1970 1 1 0 0 = ⟨62135596800 * 1000000000, 0⟩ := by
  decide

/-- The value of `Hours` is the duration divided by one hour. -/
theorem Hours_eq (d : Duration) : Duration.Hours d = (d : ℚ) / 3600000000000 := by
  unfold Duration.Hours
  have h := Int.tmod_add_tdiv d Hour
  have h2 : ((Int.tmod d Hour : Int) : ℚ) + (Hour : ℚ) * ((Int.tdiv d Hour : Int) : ℚ)
      = (d : ℚ) := by
    exact_mod_cast h
  have h3 : (Hour : ℚ) = 3600000000000 := by simp [Hour]
  rw [h3] at h2
  simp only []
  rw [← h2]
  norm_num
  ring

/-- The value of `Hours` is negative exactly on negative durations. -/
theorem Hours_neg_iff (d : Duration) : Duration.Hours d < 0 ↔ d < 0 := by
  rw [Hours_eq]
  constructor
  · intro h
    by_contra hc
    push_neg at hc
    have h0 : (0 : ℚ) ≤ (d : ℚ) := by exact_mod_cast hc
    have h1 : (0 : ℚ) ≤ (d : ℚ) / 3600000000000 := by positivity
    linarith
  · intro h
    have h0 : (d : ℚ) < 0 := by exact_mod_cast h
    exact div_neg_of_neg_of_pos h0 (by norm_num)

/-- Saturation keeps the sign: `t.Sub(u)` is negative exactly when `t` is before `u`. -/
theorem Sub_neg_iff (t u : Time) : Time.Sub t u < 0 ↔ t.ns < u.ns := by
  have hmin : minDuration = -9223372036854775808 := by norm_num [minDuration]
  have hmax : maxDuration = 9223372036854775807 := by norm_num [maxDuration]
  unfold Time.Sub
  simp only [hmin, hmax]
  split_ifs with h1 h2
  · constructor <;> intro h <;> linarith
  · constructor <;> intro h <;> linarith
  · constructor <;> intro h <;> linarith

/-- The test `hrs < 0` of `CreateClass` holds exactly when the end is before the
start. -/
theorem hrs_neg_iff (startDate endDate : Time) :
    Duration.Hours (endDate.Sub startDate) < 0 ↔ endDate.ns < startDate.ns := by
  rw [Hours_neg_iff, Sub_neg_iff]

/-- The method `CreateClass` with the test on the hours replaced by the comparison of the two
instants. -/
theorem CreateClass_eq (parse : String → String → Except ParseError Time) (cfg : Config)
    (syMap : muMapStore ClassInfo) (info : Class) :
    CreateClass parse cfg syMap info =
      match parse cfg.DateFormat info.StartDate with
      | .error err => (some (.Parse err), syMap)
      | .ok startDate =>
        match parse cfg.DateFormat info.EndDate with
        | .error err => (some (.Parse err), syMap)
        | .ok endDate =>
          if endDate.ns < startDate.ns then (some .ErrEndTimeLessThanStartTime, syMap)
          else
            (none, syMap.Store info.Name
              { AllowedCapacity := info.Capacity
                EndDate := endDate.Truncate (24 * Hour)
                Bookings := fun _ => [] }) := by
  unfold CreateClass
  cases parse cfg.DateFormat info.StartDate with
  | error err => rfl
  | ok startDate =>
    cases parse cfg.DateFormat info.EndDate with
    | error err => rfl
    | ok endDate =>
      simp only [hrs_neg_iff]

/-- The method `CreateBooking` once the date has parsed and the class has been loaded: the
three checks in order, then the append and the write back. -/
theorem CreateBooking_eq (parse : String → String → Except ParseError Time) (cfg : Config)
    (syMap : muMapStore ClassInfo) (bookingInfo : BookingInfo) (r : ClassInfo) (d : Time)
    (hparse : parse cfg.DateFormat bookingInfo.BookingDate = .ok d)
    (hload : syMap.Load bookingInfo.ClassName = some r) :
    CreateBooking parse cfg syMap bookingInfo =
      if d.ns < r.StartDate.ns then (some .ErrBookingDatePassed, syMap)
      else if r.EndDate.ns < d.ns then (some .ErrBookingDatePassed, syMap)
      else if r.AllowedCapacity ≤ ((r.Bookings d).length : Int) then
        (some .ErrSlotsFullForTheDate, syMap)
      else
        (none, syMap.Store bookingInfo.ClassName
          { r with
            Bookings := setBookings r.Bookings d
              (r.Bookings d ++ [bookingInfo.UserName]) }) := by
  unfold CreateBooking
  rw [hparse]
  simp only [hload, Time.Before, Time.After, decide_eq_true_eq, gt_iff_lt, ge_iff_le]

/-- Loading the key just stored gives the stored value. -/
theorem Load_Store_same {α : Type} (s : muMapStore α) (key : String) (value : α) :
    (s.Store key value).Load key = some value := by
  simp [muMapStore.Load, muMapStore.Store]

/-- Storing under one key leaves every other key as it was. -/
theorem Load_Store_other {α : Type} (s : muMapStore α) (key k : String) (value : α)
    (h : k ≠ key) : (s.Store key value).Load k = s.Load k := by
  simp [muMapStore.Load, muMapStore.Store, h]

/-! ## Booking: capacity, append, window, missing class -/

/-- C2. When the class is stored, the booking date parses to a date inside the
window of the record and that date already holds at least `AllowedCapacity` users,
`CreateBooking` returns `ErrSlotsFullForTheDate` and hands back the store it was
given: nothing is appended anywhere. -/
theorem CreateBooking_slots_full (parse : String → String → Except ParseError Time)
    (cfg : Config) (syMap : muMapStore ClassInfo) (bookingInfo : BookingInfo)
    (r : ClassInfo) (d : Time)
    (hload : syMap.Load bookingInfo.ClassName = some r)
    (hparse : parse cfg.DateFormat bookingInfo.BookingDate = .ok d)
    (hstart : r.StartDate.ns ≤ d.ns) (hend : d.ns ≤ r.EndDate.ns)
    (hfull : r.AllowedCapacity ≤ ((r.Bookings d).length : Int)) :
    CreateBooking parse cfg syMap bookingInfo = (some .ErrSlotsFullForTheDate, syMap) := by
  rw [CreateBooking_eq parse cfg syMap bookingInfo r d hparse hload]
  rw [if_neg (not_lt.mpr hstart), if_neg (not_lt.mpr hend), if_pos hfull]

/-- C2 at the store of the test: the class has one slot, taken by `existing_user`. -/
theorem CreateBooking_slots_full_witness :
    CreateBooking sampleParse cfgDate (muMapStore.empty.Store "YogaClass" fullRecord)
        ⟨"YogaClass", "john_doe", "2025-06-05"⟩
      = (some .ErrSlotsFullForTheDate, muMapStore.empty.Store "YogaClass" fullRecord) :=
  CreateBooking_slots_full sampleParse cfgDate _ ⟨"YogaClass", "john_doe", "2025-06-05"⟩
    fullRecord (Date 2025 6 5 0 0) rfl rfl (by decide) (by decide) (by decide)

/-- C3. When the class is stored as `r`, the booking date parses to a date `d`
inside the window of `r` and `d` holds fewer than `AllowedCapacity` users,
`CreateBooking` returns no error and the record stored under the class name
afterwards has `Bookings[d]` equal to the old list with the user name appended at
the end, one entry longer, the old entries first and in their order. A second
booking for the same class and date that also returns no error leaves the list as
the old one followed by the two user names in call order, and it does return no
error whenever the date has room for two. -/
theorem CreateBooking_appends (parse : String → String → Except ParseError Time)
    (cfg : Config) (syMap : muMapStore ClassInfo) (bookingInfo : BookingInfo)
    (r : ClassInfo) (d : Time)
    (hload : syMap.Load bookingInfo.ClassName = some r)
    (hparse : parse cfg.DateFormat bookingInfo.BookingDate = .ok d)
    (hstart : r.StartDate.ns ≤ d.ns) (hend : d.ns ≤ r.EndDate.ns)
    (hroom : ((r.Bookings d).length : Int) < r.AllowedCapacity) :
    (CreateBooking parse cfg syMap bookingInfo).1 = none
    ∧ (∃ r1, (CreateBooking parse cfg syMap bookingInfo).2.Load bookingInfo.ClassName
          = some r1
        ∧ r1.Bookings d = r.Bookings d ++ [bookingInfo.UserName]
        ∧ (r1.Bookings d).length = (r.Bookings d).length + 1
        ∧ (r1.Bookings d).take (r.Bookings d).length = r.Bookings d)
    ∧ (∀ second : BookingInfo, second.ClassName = bookingInfo.ClassName →
        parse cfg.DateFormat second.BookingDate = .ok d →
        ((((r.Bookings d).length : Int) + 1 < r.AllowedCapacity →
          (CreateBooking parse cfg (CreateBooking parse cfg syMap bookingInfo).2 second).1
            = none)
        ∧ ((CreateBooking parse cfg (CreateBooking parse cfg syMap bookingInfo).2 second).1
            = none →
          ∃ r2, (CreateBooking parse cfg (CreateBooking parse cfg syMap bookingInfo).2
                second).2.Load bookingInfo.ClassName = some r2
            ∧ r2.Bookings d
              = r.Bookings d ++ [bookingInfo.UserName, second.UserName]))) := by
  have h1 := CreateBooking_eq parse cfg syMap bookingInfo r d hparse hload
  rw [if_neg (not_lt.mpr hstart), if_neg (not_lt.mpr hend), if_neg (not_le.mpr hroom)] at h1
  rw [h1]
  refine ⟨rfl, ⟨_, Load_Store_same _ _ _, ?_, ?_, ?_⟩, ?_⟩
  · simp [setBookings]
  · simp [setBookings]
  · simp [setBookings]
  · intro second hclass hparse2
    have hload2 : (syMap.Store bookingInfo.ClassName
        { r with
          Bookings := setBookings r.Bookings d
            (r.Bookings d ++ [bookingInfo.UserName]) }).Load second.ClassName
        = some { r with
          Bookings := setBookings r.Bookings d
            (r.Bookings d ++ [bookingInfo.UserName]) } := by
      rw [hclass]; exact Load_Store_same _ _ _
    have h2 := CreateBooking_eq parse cfg _ second _ d hparse2 hload2
    simp only [] at h2
    rw [if_neg (not_lt.mpr hstart), if_neg (not_lt.mpr hend)] at h2
    have hlen : ((setBookings r.Bookings d (r.Bookings d ++ [bookingInfo.UserName]) d).length
        : Int) = ((r.Bookings d).length : Int) + 1 := by
      simp [setBookings]
    rw [hlen] at h2
    constructor
    · intro hroom2
      rw [if_neg (not_le.mpr hroom2)] at h2
      rw [h2]
    · intro hok
      by_cases hfull : r.AllowedCapacity ≤ ((r.Bookings d).length : Int) + 1
      · rw [if_pos hfull] at h2
        rw [h2] at hok
        exact absurd hok (by simp)
      · rw [if_neg hfull] at h2
        rw [h2, hclass]
        refine ⟨_, Load_Store_same _ _ _, ?_⟩
        simp [setBookings]

/-- C3 at a record with five slots, one taken: `john` and then `jane` are booked on
June 5 after `existing_user`, in that order. -/
theorem CreateBooking_appends_witness :
    (CreateBooking sampleParse cfgDate (muMapStore.empty.Store "YogaClass" openRecord)
        ⟨"YogaClass", "john", "2025-06-05"⟩).1 = none
    ∧ (∃ r2, (CreateBooking sampleParse cfgDate
          (CreateBooking sampleParse cfgDate (muMapStore.empty.Store "YogaClass" openRecord)
            ⟨"YogaClass", "john", "2025-06-05"⟩).2
          ⟨"YogaClass", "jane", "2025-06-05"⟩).2.Load "YogaClass" = some r2
        ∧ r2.Bookings (Date 2025 6 5 0 0) = ["existing_user", "john", "jane"]) :=
  have h := CreateBooking_appends sampleParse cfgDate
    (muMapStore.empty.Store "YogaClass" openRecord) ⟨"YogaClass", "john", "2025-06-05"⟩
    openRecord (Date 2025 6 5 0 0) rfl rfl (by decide) (by decide) (by decide)
  ⟨h.1, ((h.2.2 ⟨"YogaClass", "jane", "2025-06-05"⟩ rfl rfl).2
    ((h.2.2 ⟨"YogaClass", "jane", "2025-06-05"⟩ rfl rfl).1 (by decide)))⟩

/-- C4, as the code has it. When the class is stored as `r` and the booking date
parses to `d`, `CreateBooking` returns `ErrBookingDatePassed` exactly when `d` is
strictly before `r.StartDate` or strictly after `r.EndDate`; and when the window of
`r` is not empty (`r.StartDate` is not after `r.EndDate`), a date equal to
`r.StartDate` or to `r.EndDate` is not rejected with that error. -/
theorem CreateBooking_window_iff (parse : String → String → Except ParseError Time)
    (cfg : Config) (syMap : muMapStore ClassInfo) (bookingInfo : BookingInfo)
    (r : ClassInfo) (d : Time)
    (hload : syMap.Load bookingInfo.ClassName = some r)
    (hparse : parse cfg.DateFormat bookingInfo.BookingDate = .ok d) :
    ((CreateBooking parse cfg syMap bookingInfo).1 = some .ErrBookingDatePassed
        ↔ (d.ns < r.StartDate.ns ∨ r.EndDate.ns < d.ns))
    ∧ (r.StartDate.ns ≤ r.EndDate.ns →
        (d.ns = r.StartDate.ns ∨ d.ns = r.EndDate.ns) →
        (CreateBooking parse cfg syMap bookingInfo).1 ≠ some .ErrBookingDatePassed) := by
  have hiff : (CreateBooking parse cfg syMap bookingInfo).1 = some .ErrBookingDatePassed
      ↔ (d.ns < r.StartDate.ns ∨ r.EndDate.ns < d.ns) := by
    rw [CreateBooking_eq parse cfg syMap bookingInfo r d hparse hload]
    by_cases h1 : d.ns < r.StartDate.ns
    · simp [h1]
    · by_cases h2 : r.EndDate.ns < d.ns
      · simp [h2]
      · by_cases h3 : r.AllowedCapacity ≤ ((r.Bookings d).length : Int)
        · simp [h1, h2, h3]
        · simp [h1, h2, h3]
  refine ⟨hiff, ?_⟩
  intro hwin hb hrej
  rcases hiff.mp hrej with h | h
  · rcases hb with hb | hb <;> omega
  · rcases hb with hb | hb <;> omega

/-- C4 as amended, at the record with five slots and the window June 1 to June 10:
a booking on June 1, the start date, is not rejected with the window error. -/
theorem CreateBooking_window_iff_witness :
    (CreateBooking sampleParse cfgDate (muMapStore.empty.Store "YogaClass" openRecord)
        ⟨"YogaClass", "john", "2025-06-01"⟩).1 ≠ some .ErrBookingDatePassed :=
  (CreateBooking_window_iff sampleParse cfgDate
    (muMapStore.empty.Store "YogaClass" openRecord) ⟨"YogaClass", "john", "2025-06-01"⟩
    openRecord (Date 2025 6 1 0 0) rfl rfl).2 (by decide) (Or.inl rfl)

/-- C4 as stated fails on a record whose end date is before its start date: the
class is stored, the booking date parses to the start date of the record, and
`CreateBooking` rejects it with `ErrBookingDatePassed`. -/
theorem CreateBooking_window_boundary_counterexample :
    (muMapStore.empty.Store "YogaClass" emptyWindowRecord).Load "YogaClass"
      = some emptyWindowRecord
    ∧ sampleParse cfgDate.DateFormat "2025-06-10" = .ok emptyWindowRecord.StartDate
    ∧ (CreateBooking sampleParse cfgDate (muMapStore.empty.Store "YogaClass" emptyWindowRecord)
        ⟨"YogaClass", "john_doe", "2025-06-10"⟩).1 = some .ErrBookingDatePassed := by
  refine ⟨rfl, rfl, ?_⟩
  decide

/-- C7. When the store has no entry under the class name and the booking date
parses, `CreateBooking` returns `ErrClassNotExist`, whoever the user and whatever
the date; the store is handed back as it was. -/
theorem CreateBooking_class_not_exist (parse : String → String → Except ParseError Time)
    (cfg : Config) (syMap : muMapStore ClassInfo) (bookingInfo : BookingInfo) (d : Time)
    (hload : syMap.Load bookingInfo.ClassName = none)
    (hparse : parse cfg.DateFormat bookingInfo.BookingDate = .ok d) :
    CreateBooking parse cfg syMap bookingInfo = (some .ErrClassNotExist, syMap) := by
  unfold CreateBooking
  rw [hparse]
  simp only [hload]

/-- C7 at the scenario of the class `Ghost` that was never created. -/
theorem CreateBooking_class_not_exist_witness :
    CreateBooking sampleParse cfgDate (muMapStore.empty.Store "YogaClass" openRecord)
        ⟨"Ghost", "john_doe", "2025-06-05"⟩
      = (some .ErrClassNotExist, muMapStore.empty.Store "YogaClass" openRecord) :=
  CreateBooking_class_not_exist sampleParse cfgDate _ ⟨"Ghost", "john_doe", "2025-06-05"⟩
    (Date 2025 6 5 0 0) rfl rfl

/-! ## Class creation followed by a booking -/

/-- C5, the code at the failing input. Class `Yoga` is created for June 1 to June 10,
2025 and `CreateClass` returns no error; the booking date May 1, 2025 parses to a
date strictly before the parsed start date; yet `CreateBooking` returns no error
and the stored record now lists `john` on May 1. -/
theorem CreateBooking_before_start_accepted :
    (CreateClass sampleParse cfgDate muMapStore.empty yoga).1 = none
    ∧ (∃ startDate d, sampleParse cfgDate.DateFormat yoga.StartDate = .ok startDate
        ∧ sampleParse cfgDate.DateFormat "2025-05-01" = .ok d ∧ d.ns < startDate.ns)
    ∧ (CreateBooking sampleParse cfgDate
        (CreateClass sampleParse cfgDate muMapStore.empty yoga).2
        ⟨"Yoga", "john", "2025-05-01"⟩).1 = none
    ∧ (∃ r, (CreateBooking sampleParse cfgDate
          (CreateClass sampleParse cfgDate muMapStore.empty yoga).2
          ⟨"Yoga", "john", "2025-05-01"⟩).2.Load "Yoga" = some r
        ∧ r.Bookings (Date 2025 5 1 0 0) = ["john"]) := by
  rw [CreateClass_eq]
  refine ⟨by decide, ⟨_, _, rfl, rfl, by decide⟩, by decide, ⟨_, rfl, rfl⟩⟩

/-- A `CreateBooking` leaves every stored record in place with its start and end
date: a key that loaded a record before loads one with the same window after. -/
theorem CreateBooking_keeps_window (parse : String → String → Except ParseError Time)
    (cfg : Config) (syMap : muMapStore ClassInfo) (bookingInfo : BookingInfo)
    (name : String) (r : ClassInfo) (hload : syMap.Load name = some r) :
    ∃ r1, (CreateBooking parse cfg syMap bookingInfo).2.Load name = some r1
      ∧ r1.StartDate = r.StartDate ∧ r1.EndDate = r.EndDate := by
  cases hp : parse cfg.DateFormat bookingInfo.BookingDate with
  | error err => unfold CreateBooking; simp only [hp]; exact ⟨r, hload, rfl, rfl⟩
  | ok d =>
    cases hl : syMap.Load bookingInfo.ClassName with
    | none => unfold CreateBooking; simp only [hp, hl]; exact ⟨r, hload, rfl, rfl⟩
    | some r0 =>
      rw [CreateBooking_eq parse cfg syMap bookingInfo r0 d hp hl]
      by_cases h1 : d.ns < r0.StartDate.ns
      · rw [if_pos h1]; exact ⟨r, hload, rfl, rfl⟩
      · by_cases h2 : r0.EndDate.ns < d.ns
        · rw [if_neg h1, if_pos h2]; exact ⟨r, hload, rfl, rfl⟩
        · by_cases h3 : r0.AllowedCapacity ≤ ((r0.Bookings d).length : Int)
          · rw [if_neg h1, if_neg h2, if_pos h3]; exact ⟨r, hload, rfl, rfl⟩
          · rw [if_neg h1, if_neg h2, if_neg h3]
            by_cases hn : name = bookingInfo.ClassName
            · subst hn
              rw [hload] at hl
              cases hl
              exact ⟨_, Load_Store_same _ _ _, rfl, rfl⟩
            · rw [Load_Store_other _ _ _ _ hn]
              exact ⟨r, hload, rfl, rfl⟩

/-- A sequence of `CreateBooking` calls leaves every stored record in place with its
start and end date. -/
theorem bookings_keep_window (parse : String → String → Except ParseError Time)
    (cfg : Config) (between : List BookingInfo) :
    ∀ (syMap : muMapStore ClassInfo) (name : String) (r : ClassInfo),
      syMap.Load name = some r →
      ∃ r1, (runCalls parse cfg syMap (between.map Call.createBooking)).Load name = some r1
        ∧ r1.StartDate = r.StartDate ∧ r1.EndDate = r.EndDate := by
  induction between with
  | nil => intro syMap name r hload; exact ⟨r, hload, rfl, rfl⟩
  | cons b rest ih =>
    intro syMap name r hload
    obtain ⟨r1, h1, hs1, he1⟩ := CreateBooking_keeps_window parse cfg syMap b name r hload
    obtain ⟨r2, h2, hs2, he2⟩ := ih (CreateBooking parse cfg syMap b).2 name r1 h1
    exact ⟨r2, h2, hs2.trans hs1, he2.trans he1⟩

/-- C6, as the code has it. After a `CreateClass` that returned no error, whose
parsed end date lies on a 24-hour boundary and whose parsed start date is not
before the zero time, and after any further `CreateBooking` calls, a `CreateBooking`
for that class whose date string is the start string or the end string of the
class is not rejected with `ErrBookingDatePassed`. -/
theorem CreateBooking_boundary_strings (parse : String → String → Except ParseError Time)
    (cfg : Config) (syMap : muMapStore ClassInfo) (info : Class)
    (startDate endDate : Time) (between : List BookingInfo) (bookingInfo : BookingInfo)
    (hstart : parse cfg.DateFormat info.StartDate = .ok startDate)
    (hend : parse cfg.DateFormat info.EndDate = .ok endDate)
    (hcreated : (CreateClass parse cfg syMap info).1 = none)
    (hzero : 0 ≤ startDate.ns)
    (hday : endDate.ns % (24 * Hour) = 0)
    (hclass : bookingInfo.ClassName = info.Name)
    (hdate : bookingInfo.BookingDate = info.StartDate
      ∨ bookingInfo.BookingDate = info.EndDate) :
    (CreateBooking parse cfg
        (runCalls parse cfg (CreateClass parse cfg syMap info).2
          (between.map Call.createBooking)) bookingInfo).1
      ≠ some .ErrBookingDatePassed := by
  rw [CreateClass_eq] at hcreated ⊢
  simp only [hstart, hend] at hcreated ⊢
  have hle : ¬ endDate.ns < startDate.ns := by
    intro hlt
    rw [if_pos hlt] at hcreated
    exact absurd hcreated (by simp)
  rw [if_neg hle]
  have hH : (24 : Int) * Hour = 86400000000000 := by norm_num [Hour]
  have htr : (endDate.Truncate (24 * Hour)).ns = endDate.ns := by
    unfold Time.Truncate
    rw [hH] at hday ⊢
    simp [hday]
  obtain ⟨r1, hl, hs1, he1⟩ := bookings_keep_window parse cfg between
    (syMap.Store info.Name
      { AllowedCapacity := info.Capacity
        EndDate := endDate.Truncate (24 * Hour)
        Bookings := fun _ => [] })
    info.Name _ (Load_Store_same _ _ _)
  have hl2 : (runCalls parse cfg
      (syMap.Store info.Name
        { AllowedCapacity := info.Capacity
          EndDate := endDate.Truncate (24 * Hour)
          Bookings := fun _ => [] })
      (between.map Call.createBooking)).Load bookingInfo.ClassName = some r1 := by
    rw [hclass]; exact hl
  have hs : r1.StartDate.ns = 0 := by rw [hs1]; rfl
  have he : r1.EndDate.ns = endDate.ns := by rw [he1]; exact htr
  rcases hdate with hd | hd
  · have hp : parse cfg.DateFormat bookingInfo.BookingDate = .ok startDate := by
      rw [hd]; exact hstart
    rw [CreateBooking_eq parse cfg _ bookingInfo r1 startDate hp hl2]
    rw [hs, he, if_neg (not_lt.mpr hzero), if_neg (by omega)]
    split_ifs <;> simp
  · have hp : parse cfg.DateFormat bookingInfo.BookingDate = .ok endDate := by
      rw [hd]; exact hend
    rw [CreateBooking_eq parse cfg _ bookingInfo r1 endDate hp hl2]
    rw [hs, he, if_neg (by omega), if_neg (lt_irrefl _)]
    split_ifs <;> simp

/-- C6 as amended, at the scenario class under the date-only format: after `jane`
has booked June 5, a booking whose date string is the end string of the class is
not rejected with the window error. -/
theorem CreateBooking_boundary_strings_witness :
    (CreateBooking sampleParse cfgDate
        (runCalls sampleParse cfgDate (CreateClass sampleParse cfgDate muMapStore.empty yoga).2
          [.createBooking ⟨"Yoga", "jane", "2025-06-05"⟩])
        ⟨"Yoga", "john", "2025-06-10"⟩).1 ≠ some .ErrBookingDatePassed :=
  CreateBooking_boundary_strings sampleParse cfgDate muMapStore.empty yoga
    (Date 2025 6 1 0 0) (Date 2025 6 10 0 0) [⟨"Yoga", "jane", "2025-06-05"⟩]
    ⟨"Yoga", "john", "2025-06-10"⟩
    rfl rfl (by rw [CreateClass_eq]; decide) (by decide) (by decide) rfl (Or.inr rfl)

/-- C6 as stated fails under a date format with a time of day: the class is created
for June 1, 09:00 to June 10, 18:00, and a booking whose date string is the end
string of the class is rejected with `ErrBookingDatePassed`, the stored end date
being June 10, 00:00. -/
theorem CreateBooking_boundary_strings_counterexample :
    (CreateClass sampleParse cfgMinute muMapStore.empty yogaMinute).1 = none
    ∧ (CreateBooking sampleParse cfgMinute
        (CreateClass sampleParse cfgMinute muMapStore.empty yogaMinute).2
        ⟨"Yoga", "john", yogaMinute.EndDate⟩).1 = some .ErrBookingDatePassed
    ∧ ((CreateClass sampleParse cfgMinute muMapStore.empty yogaMinute).2.Load "Yoga").map
        (fun r => r.EndDate) = some (Date 2025 6 10 0 0) := by
  rw [CreateClass_eq]
  refine ⟨by decide, by decide, by decide⟩

/-! ## Rejections and class creation -/

/-- C8. Whatever the store and the request, a `CreateClass` or a `CreateBooking`
that returns an error hands back the store it was given: no key is added, removed
or rebound, and no booking list is changed. -/
theorem rejection_leaves_store (parse : String → String → Except ParseError Time)
    (cfg : Config) (syMap : muMapStore ClassInfo) :
    (∀ (info : Class) (e : Error), (CreateClass parse cfg syMap info).1 = some e →
        (CreateClass parse cfg syMap info).2 = syMap)
    ∧ (∀ (bookingInfo : BookingInfo) (e : Error),
        (CreateBooking parse cfg syMap bookingInfo).1 = some e →
        (CreateBooking parse cfg syMap bookingInfo).2 = syMap) := by
  constructor
  · intro info e h
    rw [CreateClass_eq] at h ⊢
    cases hs : parse cfg.DateFormat info.StartDate with
    | error err => simp only [hs]
    | ok startDate =>
      cases he : parse cfg.DateFormat info.EndDate with
      | error err => simp only [hs, he]
      | ok endDate =>
        simp only [hs, he] at h ⊢
        by_cases hlt : endDate.ns < startDate.ns
        · rw [if_pos hlt]
        · rw [if_neg hlt] at h
          exact absurd h (by simp)
  · intro bookingInfo e h
    cases hp : parse cfg.DateFormat bookingInfo.BookingDate with
    | error err => unfold CreateBooking; simp only [hp]
    | ok d =>
      cases hl : syMap.Load bookingInfo.ClassName with
      | none => unfold CreateBooking; simp only [hp, hl]
      | some r =>
        rw [CreateBooking_eq parse cfg syMap bookingInfo r d hp hl] at h ⊢
        by_cases h1 : d.ns < r.StartDate.ns
        · rw [if_pos h1]
        · by_cases h2 : r.EndDate.ns < d.ns
          · rw [if_neg h1, if_pos h2]
          · by_cases h3 : r.AllowedCapacity ≤ ((r.Bookings d).length : Int)
            · rw [if_neg h1, if_neg h2, if_pos h3]
            · rw [if_neg h1, if_neg h2, if_neg h3] at h
              exact absurd h (by simp)

/-- C8 at two rejected calls on an empty store: a class whose end is before its
start, and a booking into a class that does not exist. -/
theorem rejection_leaves_store_witness :
    (CreateClass sampleParse cfgDate muMapStore.empty
        ⟨"Yoga", 5, "2025-06-10", "2025-06-01"⟩).2 = muMapStore.empty
    ∧ (CreateBooking sampleParse cfgDate muMapStore.empty
        ⟨"Ghost", "john", "2025-06-05"⟩).2 = muMapStore.empty :=
  ⟨(rejection_leaves_store sampleParse cfgDate muMapStore.empty).1
      ⟨"Yoga", 5, "2025-06-10", "2025-06-01"⟩ .ErrEndTimeLessThanStartTime
      (by rw [CreateClass_eq]; decide),
    (rejection_leaves_store sampleParse cfgDate muMapStore.empty).2
      ⟨"Ghost", "john", "2025-06-05"⟩ .ErrClassNotExist (by decide)⟩

/-- C9. When both date strings parse and the parsed end is not before the parsed
start, `CreateClass` returns no error and the store afterwards maps the class name
to a record with the requested capacity, the parsed end date rounded down to a
multiple of 24 hours since the zero time (same location, less than a day earlier),
an empty `Bookings` map and the zero time as `StartDate`; every other key loads
what it loaded before. -/
theorem CreateClass_success (parse : String → String → Except ParseError Time)
    (cfg : Config) (syMap : muMapStore ClassInfo) (info : Class) (startDate endDate : Time)
    (hstart : parse cfg.DateFormat info.StartDate = .ok startDate)
    (hend : parse cfg.DateFormat info.EndDate = .ok endDate)
    (hle : startDate.ns ≤ endDate.ns) :
    (CreateClass parse cfg syMap info).1 = none
    ∧ (∃ r, (CreateClass parse cfg syMap info).2.Load info.Name = some r
        ∧ r.AllowedCapacity = info.Capacity
        ∧ r.EndDate = endDate.Truncate (24 * Hour)
        ∧ r.EndDate.loc = endDate.loc
        ∧ r.EndDate.ns % 86400000000000 = 0
        ∧ r.EndDate.ns ≤ endDate.ns ∧ endDate.ns < r.EndDate.ns + 86400000000000
        ∧ (∀ d, r.Bookings d = [])
        ∧ r.StartDate = Time.zero)
    ∧ (∀ k, k ≠ info.Name → (CreateClass parse cfg syMap info).2.Load k = syMap.Load k) := by
  rw [CreateClass_eq]
  simp only [hstart, hend]
  rw [if_neg (not_lt.mpr hle)]
  have hH : (24 : Int) * Hour = 86400000000000 := by norm_num [Hour]
  have htr : (endDate.Truncate (24 * Hour)).ns = endDate.ns - endDate.ns % 86400000000000 := by
    unfold Time.Truncate
    rw [hH]
    simp
  have hloc : (endDate.Truncate (24 * Hour)).loc = endDate.loc := by
    unfold Time.Truncate
    rw [hH]
    simp
  refine ⟨rfl, ⟨_, Load_Store_same _ _ _, rfl, rfl, hloc, ?_, ?_, ?_, fun _ => rfl, rfl⟩, ?_⟩
  · simp only [htr]; omega
  · simp only [htr]; omega
  · simp only [htr]; omega
  · intro k hk
    exact Load_Store_other _ _ _ _ hk

/-- C9 at the scenario class: capacity 5, end date June 10, 2025, start date unset. -/
theorem CreateClass_success_witness :
    (CreateClass sampleParse cfgDate muMapStore.empty yoga).1 = none
    ∧ (∃ r, (CreateClass sampleParse cfgDate muMapStore.empty yoga).2.Load "Yoga" = some r
        ∧ r.AllowedCapacity = 5 ∧ r.EndDate = Date 2025 6 10 0 0
        ∧ r.StartDate = Time.zero) :=
  have h := CreateClass_success sampleParse cfgDate muMapStore.empty yoga
    (Date 2025 6 1 0 0) (Date 2025 6 10 0 0) rfl rfl (by decide)
  ⟨h.1, h.2.1.elim fun r hr => ⟨r, hr.1, hr.2.1, hr.2.2.1.trans (by decide), hr.2.2.2.2.2.2.2.2⟩⟩

/-- C10. When both date strings parse, `CreateClass` returns
`ErrEndTimeLessThanStartTime` exactly when the parsed end is strictly before the
parsed start; when the two are the same instant it returns no error and the class
is stored. -/
theorem CreateClass_end_before_start_iff
    (parse : String → String → Except ParseError Time)
    (cfg : Config) (syMap : muMapStore ClassInfo) (info : Class) (startDate endDate : Time)
    (hstart : parse cfg.DateFormat info.StartDate = .ok startDate)
    (hend : parse cfg.DateFormat info.EndDate = .ok endDate) :
    ((CreateClass parse cfg syMap info).1 = some .ErrEndTimeLessThanStartTime
        ↔ endDate.ns < startDate.ns)
    ∧ (endDate.ns = startDate.ns →
        (CreateClass parse cfg syMap info).1 = none
        ∧ ∃ r, (CreateClass parse cfg syMap info).2.Load info.Name = some r
            ∧ r.AllowedCapacity = info.Capacity) := by
  rw [CreateClass_eq]
  simp only [hstart, hend]
  constructor
  · by_cases hlt : endDate.ns < startDate.ns
    · simp [hlt]
    · simp [hlt]
  · intro heq
    rw [if_neg (by omega)]
    exact ⟨rfl, _, Load_Store_same _ _ _, rfl⟩

/-- C10 at two requests: a class that starts and ends on June 5, 2025 is created, and
a class from June 10 back to June 1 is refused with `ErrEndTimeLessThanStartTime`. -/
theorem CreateClass_end_before_start_iff_witness :
    (CreateClass sampleParse cfgDate muMapStore.empty
        ⟨"Yoga", 5, "2025-06-05", "2025-06-05"⟩).1 = none
    ∧ (CreateClass sampleParse cfgDate muMapStore.empty
        ⟨"Yoga", 5, "2025-06-10", "2025-06-01"⟩).1 = some .ErrEndTimeLessThanStartTime :=
  ⟨((CreateClass_end_before_start_iff sampleParse cfgDate muMapStore.empty
      ⟨"Yoga", 5, "2025-06-05", "2025-06-05"⟩ (Date 2025 6 5 0 0) (Date 2025 6 5 0 0)
      rfl rfl).2 rfl).1,
    (CreateClass_end_before_start_iff sampleParse cfgDate muMapStore.empty
      ⟨"Yoga", 5, "2025-06-10", "2025-06-01"⟩ (Date 2025 6 10 0 0) (Date 2025 6 1 0 0)
      rfl rfl).1.mpr (by decide)⟩

/-! ## The capacity invariant -/

/-- The empty store is within capacity. -/
theorem withinCapacity_empty : withinCapacity muMapStore.empty := by
  intro name r h
  simp [muMapStore.Load, muMapStore.empty] at h

/-- A `CreateClass` with a positive capacity keeps the store within capacity. -/
theorem withinCapacity_CreateClass (parse : String → String → Except ParseError Time)
    (cfg : Config) (syMap : muMapStore ClassInfo) (info : Class)
    (hpos : 0 < info.Capacity) (hinv : withinCapacity syMap) :
    withinCapacity (CreateClass parse cfg syMap info).2 := by
  rw [CreateClass_eq]
  cases hs : parse cfg.DateFormat info.StartDate with
  | error err => exact hinv
  | ok startDate =>
    cases he : parse cfg.DateFormat info.EndDate with
    | error err => exact hinv
    | ok endDate =>
      simp only []
      by_cases hlt : endDate.ns < startDate.ns
      · rw [if_pos hlt]; exact hinv
      · rw [if_neg hlt]
        intro name r hload d
        by_cases hn : name = info.Name
        · subst hn
          rw [Load_Store_same] at hload
          cases hload
          simp only [List.length_nil, Nat.cast_zero]
          omega
        · rw [Load_Store_other _ _ _ _ hn] at hload
          exact hinv name r hload d

/-- A `CreateBooking` keeps the store within capacity. -/
theorem withinCapacity_CreateBooking (parse : String → String → Except ParseError Time)
    (cfg : Config) (syMap : muMapStore ClassInfo) (bookingInfo : BookingInfo)
    (hinv : withinCapacity syMap) :
    withinCapacity (CreateBooking parse cfg syMap bookingInfo).2 := by
  cases hp : parse cfg.DateFormat bookingInfo.BookingDate with
  | error err => unfold CreateBooking; simp only [hp]; exact hinv
  | ok d =>
    cases hl : syMap.Load bookingInfo.ClassName with
    | none => unfold CreateBooking; simp only [hp, hl]; exact hinv
    | some r =>
      rw [CreateBooking_eq parse cfg syMap bookingInfo r d hp hl]
      by_cases h1 : d.ns < r.StartDate.ns
      · rw [if_pos h1]; exact hinv
      · by_cases h2 : r.EndDate.ns < d.ns
        · rw [if_neg h1, if_pos h2]; exact hinv
        · by_cases h3 : r.AllowedCapacity ≤ ((r.Bookings d).length : Int)
          · rw [if_neg h1, if_neg h2, if_pos h3]; exact hinv
          · rw [if_neg h1, if_neg h2, if_neg h3]
            intro name r1 hload d1
            by_cases hn : name = bookingInfo.ClassName
            · subst hn
              rw [Load_Store_same] at hload
              cases hload
              by_cases hd : d1 = d
              · subst hd
                simp only [setBookings, if_true, List.length_append, List.length_singleton,
                  Nat.cast_add, Nat.cast_one]
                omega
              · simp only [setBookings, if_neg hd]
                exact hinv _ r hl d1
            · rw [Load_Store_other _ _ _ _ hn] at hload
              exact hinv name r1 hload d1

/-- A sequence of calls with positive capacities keeps a store within capacity. -/
theorem withinCapacity_runCalls (parse : String → String → Except ParseError Time)
    (cfg : Config) (calls : List Call) :
    ∀ syMap : muMapStore ClassInfo, (∀ c ∈ calls, c.positiveCapacity) →
      withinCapacity syMap → withinCapacity (runCalls parse cfg syMap calls) := by
  induction calls with
  | nil => intro syMap _ hinv; exact hinv
  | cons c rest ih =>
    intro syMap hpos hinv
    have hrest : ∀ c1 ∈ rest, c1.positiveCapacity :=
      fun c1 hc1 => hpos c1 (List.mem_cons_of_mem _ hc1)
    have hc := hpos c (List.mem_cons_self _ _)
    show withinCapacity (runCalls parse cfg (applyCall parse cfg syMap c) rest)
    apply ih _ hrest
    cases c with
    | createClass info => exact withinCapacity_CreateClass parse cfg syMap info hc hinv
    | createBooking bookingInfo =>
      exact withinCapacity_CreateBooking parse cfg syMap bookingInfo hinv

/-- C1. In the store reached from the empty store by any finite sequence of
`CreateClass` calls, each with a positive capacity, and `CreateBooking` calls, every
stored record has on every date at most `AllowedCapacity` user names booked. -/
theorem capacity_invariant (parse : String → String → Except ParseError Time)
    (cfg : Config) (calls : List Call) (hpos : ∀ c ∈ calls, c.positiveCapacity)
    (name : String) (r : ClassInfo)
    (hload : (runCalls parse cfg muMapStore.empty calls).Load name = some r) (d : Time) :
    ((r.Bookings d).length : Int) ≤ r.AllowedCapacity :=
  withinCapacity_runCalls parse cfg calls muMapStore.empty hpos withinCapacity_empty
    name r hload d

/-- C1 on a class with a single slot: after `john` has booked June 5 and `jane` has
asked for the same day, the record lists `john` alone on June 5, within its
capacity of 1. -/
theorem capacity_invariant_witness :
    (∀ c ∈ sampleCalls, c.positiveCapacity)
    ∧ ∃ r, (runCalls sampleParse cfgDate muMapStore.empty sampleCalls).Load "Yoga" = some r
        ∧ r.AllowedCapacity = 1
        ∧ r.Bookings (Date 2025 6 5 0 0) = ["john"]
        ∧ ((r.Bookings (Date 2025 6 5 0 0)).length : Int) ≤ r.AllowedCapacity := by
  have hpos : ∀ c ∈ sampleCalls, c.positiveCapacity := by
    intro c hc
    simp only [sampleCalls, List.mem_cons, List.mem_singleton, List.not_mem_nil,
      or_false] at hc
    rcases hc with rfl | rfl | rfl
    · show (0 : Int) < 1
      decide
    · trivial
    · trivial
  have hload : (runCalls sampleParse cfgDate muMapStore.empty sampleCalls).Load "Yoga"
      = some { AllowedCapacity := 1
               EndDate := Date 2025 6 10 0 0
               Bookings := setBookings (fun _ => []) (Date 2025 6 5 0 0) ["john"] } := by
    simp only [runCalls, sampleCalls, List.foldl, applyCall]
    rw [CreateClass_eq]
    rfl
  exact ⟨hpos, _, hload, rfl, rfl,
    capacity_invariant sampleParse cfgDate sampleCalls hpos "Yoga" _ hload _⟩

/-! ## The service against the interface: agreement and parse errors -/

/-- Against `muMapStore` the interface version of `CreateClass` is `CreateClass`. -/
theorem service_CreateClass_muMapStore (parse : String → String → Except ParseError Time)
    (cfg : Config) (s : muMapStore ClassInfo) (info : Class) :
    service.CreateClass muMapStore.methods parse cfg s info = CreateClass parse cfg s info := by
  rfl

/-- Against `muMapStore` the interface version of `CreateBooking` is
`CreateBooking`. -/
theorem service_CreateBooking_muMapStore (parse : String → String → Except ParseError Time)
    (cfg : Config) (s : muMapStore ClassInfo) (bookingInfo : BookingInfo) :
    service.CreateBooking muMapStore.methods parse cfg s bookingInfo
      = CreateBooking parse cfg s bookingInfo := by
  unfold service.CreateBooking CreateBooking
  cases parse cfg.DateFormat bookingInfo.BookingDate with
  | error err => rfl
  | ok d =>
    simp only [muMapStore.methods]
    cases s.Load bookingInfo.ClassName with
    | none => rfl
    | some r => rfl

/-- Against a recording store `CreateClass` returns the error of `CreateClass` and
leaves the map `CreateClass` leaves. -/
theorem service_CreateClass_recording (parse : String → String → Except ParseError Time)
    (cfg : Config) (s : muMapStore ClassInfo) (calls : List StoreCall) (info : Class) :
    (service.CreateClass recordingStore.methods parse cfg ⟨s, calls⟩ info).1
        = (CreateClass parse cfg s info).1
    ∧ (service.CreateClass recordingStore.methods parse cfg ⟨s, calls⟩ info).2.store
        = (CreateClass parse cfg s info).2 := by
  unfold service.CreateClass CreateClass
  cases parse cfg.DateFormat info.StartDate with
  | error err => exact ⟨rfl, rfl⟩
  | ok startDate =>
    cases parse cfg.DateFormat info.EndDate with
    | error err => exact ⟨rfl, rfl⟩
    | ok endDate =>
      simp only []
      split_ifs
      · exact ⟨rfl, rfl⟩
      · exact ⟨rfl, rfl⟩

/-- Against a recording store `CreateBooking` returns the error of `CreateBooking`
and leaves the map `CreateBooking` leaves. -/
theorem service_CreateBooking_recording (parse : String → String → Except ParseError Time)
    (cfg : Config) (s : muMapStore ClassInfo) (calls : List StoreCall)
    (bookingInfo : BookingInfo) :
    (service.CreateBooking recordingStore.methods parse cfg ⟨s, calls⟩ bookingInfo).1
        = (CreateBooking parse cfg s bookingInfo).1
    ∧ (service.CreateBooking recordingStore.methods parse cfg ⟨s, calls⟩ bookingInfo).2.store
        = (CreateBooking parse cfg s bookingInfo).2 := by
  unfold service.CreateBooking CreateBooking
  cases parse cfg.DateFormat bookingInfo.BookingDate with
  | error err => exact ⟨rfl, rfl⟩
  | ok d =>
    simp only [recordingStore.methods]
    cases s.Load bookingInfo.ClassName with
    | none => exact ⟨rfl, rfl⟩
    | some r =>
      simp only []
      split_ifs
      · exact ⟨rfl, rfl⟩
      · exact ⟨rfl, rfl⟩
      · exact ⟨rfl, rfl⟩
      · exact ⟨rfl, rfl⟩

/-- C11. If the start string does not parse, `CreateClass` returns exactly the parse
error of the start string; if the start string parses and the end string does not,
it returns exactly the parse error of the end string. In both cases the error is
the one of the parser and not `ErrEndTimeLessThanStartTime`, and no method of the
store is called: whatever implements `MapStore`, its state comes back as it was,
and a recording store has recorded no call. -/
theorem CreateClass_parse_errors {σ : Type} (syMap : MapStore σ)
    (parse : String → String → Except ParseError Time) (cfg : Config) (st : σ)
    (s : muMapStore ClassInfo) (calls : List StoreCall) (info : Class) :
    (∀ err, parse cfg.DateFormat info.StartDate = .error err →
        service.CreateClass syMap parse cfg st info = (some (.Parse err), st)
        ∧ (service.CreateClass recordingStore.methods parse cfg ⟨s, calls⟩ info).2.calls
            = calls
        ∧ CreateClass parse cfg s info = (some (.Parse err), s)
        ∧ Error.Parse err ≠ .ErrEndTimeLessThanStartTime)
    ∧ (∀ startDate err, parse cfg.DateFormat info.StartDate = .ok startDate →
        parse cfg.DateFormat info.EndDate = .error err →
        service.CreateClass syMap parse cfg st info = (some (.Parse err), st)
        ∧ (service.CreateClass recordingStore.methods parse cfg ⟨s, calls⟩ info).2.calls
            = calls
        ∧ CreateClass parse cfg s info = (some (.Parse err), s)
        ∧ Error.Parse err ≠ .ErrEndTimeLessThanStartTime) := by
  constructor
  · intro err hs
    unfold service.CreateClass CreateClass
    simp [hs]
  · intro startDate err hs he
    unfold service.CreateClass CreateClass
    simp [hs, he]

/-- C11 at the request of `TestCreateClass_InvalidStartDate` (the start string has a
time of day the format does not allow) and at a request whose end string is not a
date: a store that has recorded no call still has none. -/
theorem CreateClass_parse_errors_witness :
    (service.CreateClass recordingStore.methods sampleParse cfgDate ⟨muMapStore.empty, []⟩
        ⟨"Yoga Class", 30, "2025-06-01T00:00:00", "2025-06-10"⟩).2.calls = []
    ∧ (CreateClass sampleParse cfgDate muMapStore.empty
        ⟨"Yoga Class", 30, "2025-06-01", "tomorrow"⟩).1
      = some (.Parse ⟨"2006-01-02", "tomorrow", "", "", ""⟩) :=
  ⟨((CreateClass_parse_errors muMapStore.methods sampleParse cfgDate muMapStore.empty
      muMapStore.empty [] ⟨"Yoga Class", 30, "2025-06-01T00:00:00", "2025-06-10"⟩).1
      ⟨"2006-01-02", "2025-06-01T00:00:00", "", "", ""⟩ rfl).2.1,
    congrArg Prod.fst
      ((CreateClass_parse_errors muMapStore.methods sampleParse cfgDate muMapStore.empty
        muMapStore.empty [] ⟨"Yoga Class", 30, "2025-06-01", "tomorrow"⟩).2
        (Date 2025 6 1 0 0) ⟨"2006-01-02", "tomorrow", "", "", ""⟩ rfl rfl).2.2.1⟩

/-- C12. If the booking date does not parse, `CreateBooking` returns the parse error
and calls neither `Load` nor `Store`, whatever the store holds: the state of any
implementation of `MapStore` comes back as it was and a recording store has
recorded no call. The error is the one of the parser, hence none of
`ErrClassNotExist`, `ErrBookingDatePassed` and `ErrSlotsFullForTheDate`. -/
theorem CreateBooking_parse_error {σ : Type} (syMap : MapStore σ)
    (parse : String → String → Except ParseError Time) (cfg : Config) (st : σ)
    (s : muMapStore ClassInfo) (calls : List StoreCall) (bookingInfo : BookingInfo)
    (err : ParseError)
    (hparse : parse cfg.DateFormat bookingInfo.BookingDate = .error err) :
    service.CreateBooking syMap parse cfg st bookingInfo = (some (.Parse err), st)
    ∧ (service.CreateBooking recordingStore.methods parse cfg ⟨s, calls⟩ bookingInfo).2.calls
        = calls
    ∧ CreateBooking parse cfg s bookingInfo = (some (.Parse err), s)
    ∧ Error.Parse err ≠ .ErrClassNotExist
    ∧ Error.Parse err ≠ .ErrBookingDatePassed
    ∧ Error.Parse err ≠ .ErrSlotsFullForTheDate := by
  unfold service.CreateBooking CreateBooking
  simp [hparse]

/-- C12 at the request of `TestCreateBooking_InvalidDateFormat`, on a store whose
class `YogaClass` is full: the parse error is returned and nothing is called. -/
theorem CreateBooking_parse_error_witness :
    CreateBooking sampleParse cfgDate (muMapStore.empty.Store "YogaClass" fullRecord)
        ⟨"YogaClass", "john_doe", "invalid_date"⟩
      = (some (.Parse ⟨"2006-01-02", "invalid_date", "", "", ""⟩),
          muMapStore.empty.Store "YogaClass" fullRecord)
    ∧ (service.CreateBooking recordingStore.methods sampleParse cfgDate
        ⟨muMapStore.empty.Store "YogaClass" fullRecord, []⟩
        ⟨"YogaClass", "john_doe", "invalid_date"⟩).2.calls = [] :=
  have h := CreateBooking_parse_error muMapStore.methods sampleParse cfgDate
    (muMapStore.empty.Store "YogaClass" fullRecord)
    (muMapStore.empty.Store "YogaClass" fullRecord) []
    ⟨"YogaClass", "john_doe", "invalid_date"⟩
    ⟨"2006-01-02", "invalid_date", "", "", ""⟩ rfl
  ⟨h.2.2.1, h.2.1⟩

/-! ## Overwriting a class and filling a day -/

/-- A booking inside the window of the stored record, on a date with room, returns
no error and writes back the record with the user appended on that date. -/
theorem CreateBooking_ok (parse : String → String → Except ParseError Time) (cfg : Config)
    (syMap : muMapStore ClassInfo) (bookingInfo : BookingInfo) (r : ClassInfo) (d : Time)
    (hparse : parse cfg.DateFormat bookingInfo.BookingDate = .ok d)
    (hload : syMap.Load bookingInfo.ClassName = some r)
    (hstart : r.StartDate.ns ≤ d.ns) (hend : d.ns ≤ r.EndDate.ns)
    (hroom : ((r.Bookings d).length : Int) < r.AllowedCapacity) :
    CreateBooking parse cfg syMap bookingInfo =
      (none, syMap.Store bookingInfo.ClassName
        { r with
          Bookings := setBookings r.Bookings d
            (r.Bookings d ++ [bookingInfo.UserName]) }) := by
  rw [CreateBooking_eq parse cfg syMap bookingInfo r d hparse hload]
  rw [if_neg (not_lt.mpr hstart), if_neg (not_lt.mpr hend), if_neg (not_le.mpr hroom)]

/-- The error of a `CreateBooking` depends on the store only through what the class
name loads. -/
theorem CreateBooking_error_of_Load (parse : String → String → Except ParseError Time)
    (cfg : Config) (s1 s2 : muMapStore ClassInfo) (bookingInfo : BookingInfo)
    (h : s1.Load bookingInfo.ClassName = s2.Load bookingInfo.ClassName) :
    (CreateBooking parse cfg s1 bookingInfo).1 = (CreateBooking parse cfg s2 bookingInfo).1 := by
  unfold CreateBooking
  cases parse cfg.DateFormat bookingInfo.BookingDate with
  | error err => rfl
  | ok d =>
    simp only [h]
    cases s2.Load bookingInfo.ClassName with
    | none => rfl
    | some r =>
      simp only []
      split_ifs <;> rfl

/-- C13. Whatever the store holds under the class name, a record of any capacity
with any bookings included, a `CreateClass` with that name whose dates parse with
the end not before the start returns no error and leaves under the name a record
with the capacity and the truncated end date of the new request and no booking on
any date: the very record the same request leaves on an empty store. A booking for
the class on a date inside the new window then returns no error when the new
capacity is positive, also on a date that was full before, and that date then holds
the one new user. Every later booking for the class gets the answer it would get
had the class been created on an empty store. -/
theorem CreateClass_overwrites (parse : String → String → Except ParseError Time)
    (cfg : Config) (syMap : muMapStore ClassInfo) (info : Class)
    (startDate endDate : Time)
    (hstart : parse cfg.DateFormat info.StartDate = .ok startDate)
    (hend : parse cfg.DateFormat info.EndDate = .ok endDate)
    (hle : startDate.ns ≤ endDate.ns) :
    (CreateClass parse cfg syMap info).1 = none
    ∧ (∃ r, (CreateClass parse cfg syMap info).2.Load info.Name = some r
        ∧ r.AllowedCapacity = info.Capacity
        ∧ r.EndDate = endDate.Truncate (24 * Hour)
        ∧ r.StartDate = Time.zero
        ∧ (∀ d, r.Bookings d = []))
    ∧ (CreateClass parse cfg syMap info).2.Load info.Name
        = (CreateClass parse cfg muMapStore.empty info).2.Load info.Name
    ∧ (∀ (bookingInfo : BookingInfo) (d : Time), bookingInfo.ClassName = info.Name →
        parse cfg.DateFormat bookingInfo.BookingDate = .ok d →
        0 ≤ d.ns → d.ns ≤ (endDate.Truncate (24 * Hour)).ns → 0 < info.Capacity →
        (CreateBooking parse cfg (CreateClass parse cfg syMap info).2 bookingInfo).1 = none
        ∧ ∃ r2, (CreateBooking parse cfg (CreateClass parse cfg syMap info).2
              bookingInfo).2.Load info.Name = some r2
            ∧ r2.Bookings d = [bookingInfo.UserName])
    ∧ (∀ bookingInfo : BookingInfo, bookingInfo.ClassName = info.Name →
        (CreateBooking parse cfg (CreateClass parse cfg syMap info).2 bookingInfo).1
          = (CreateBooking parse cfg (CreateClass parse cfg muMapStore.empty info).2
              bookingInfo).1) := by
  have hnew : ∀ s0 : muMapStore ClassInfo, CreateClass parse cfg s0 info
      = (none, s0.Store info.Name
          { AllowedCapacity := info.Capacity
            EndDate := endDate.Truncate (24 * Hour)
            Bookings := fun _ => [] }) := by
    intro s0
    rw [CreateClass_eq]
    simp only [hstart, hend]
    rw [if_neg (not_lt.mpr hle)]
  rw [hnew syMap, hnew muMapStore.empty]
  refine ⟨rfl, ⟨_, Load_Store_same _ _ _, rfl, rfl, rfl, fun _ => rfl⟩, ?_, ?_, ?_⟩
  · rw [Load_Store_same, Load_Store_same]
  rotate_left
  · intro bookingInfo hclass
    apply CreateBooking_error_of_Load
    rw [hclass, Load_Store_same, Load_Store_same]
  · intro bookingInfo d hclass hparse h0 hd hpos
    have hload : (syMap.Store info.Name
        { AllowedCapacity := info.Capacity
          EndDate := endDate.Truncate (24 * Hour)
          Bookings := fun _ => [] }).Load bookingInfo.ClassName
        = some { AllowedCapacity := info.Capacity
                 EndDate := endDate.Truncate (24 * Hour)
                 Bookings := fun _ => [] } := by
      rw [hclass]; exact Load_Store_same _ _ _
    have hb := CreateBooking_ok parse cfg _ bookingInfo _ d hparse hload h0 hd
      (by simpa using hpos)
    simp only [] at hb
    rw [hb, hclass]
    refine ⟨rfl, _, Load_Store_same _ _ _, ?_⟩
    simp [setBookings]

/-- C13 at a class whose only slot on June 5 is taken: `CreateClass` is called again
with the same name, one slot and the same dates, and `john` can then book June 5. -/
theorem CreateClass_overwrites_witness :
    ((muMapStore.empty.Store "YogaClass" fullRecord).Load "YogaClass").map
        (fun r => (r.AllowedCapacity, r.Bookings (Date 2025 6 5 0 0)))
      = some (1, ["existing_user"])
    ∧ (CreateBooking sampleParse cfgDate
        (CreateClass sampleParse cfgDate (muMapStore.empty.Store "YogaClass" fullRecord)
          ⟨"YogaClass", 1, "2025-06-01", "2025-06-10"⟩).2
        ⟨"YogaClass", "john", "2025-06-05"⟩).1 = none :=
  ⟨rfl, ((CreateClass_overwrites sampleParse cfgDate
      (muMapStore.empty.Store "YogaClass" fullRecord)
      ⟨"YogaClass", 1, "2025-06-01", "2025-06-10"⟩
      (Date 2025 6 1 0 0) (Date 2025 6 10 0 0) rfl rfl (by decide)).2.2.2.1
      ⟨"YogaClass", "john", "2025-06-05"⟩ (Date 2025 6 5 0 0) rfl rfl
      (by decide) (by decide) (by decide)).1⟩

/-- After a sequence of writes on any store, a key loads the value of its most
recent `Store` not followed by a `Delete`; when there is none it loads nothing if
the sequence deletes the key, and what the store held before otherwise. -/
theorem Load_applyOps {α : Type} (ops : List (MapOp α)) (k : String) :
    ∀ s : muMapStore α, (applyOps s ops).Load k =
      match latestStore ops k with
      | some v => some v
      | none => if deletes ops k = true then none else s.Load k := by
  induction ops with
  | nil => intro s; simp [applyOps, latestStore, deletes]
  | cons op rest ih =>
    intro s
    have hstep : applyOps s (op :: rest) = applyOps (applyOp s op) rest := rfl
    rw [hstep, ih]
    cases op with
    | store key value =>
      have hdel : deletes (MapOp.store key value :: rest) k = deletes rest k := by
        simp only [deletes, List.any_cons, Bool.false_or]
      cases hl : latestStore rest k with
      | some w => simp [latestStore, hl]
      | none =>
        by_cases hd : deletes rest k = true
        · simp [latestStore, hl, hd, hdel]
        · have hd2 : deletes rest k = false := by simpa using hd
          by_cases hk : key = k
          · subst hk
            simp [latestStore, hl, hd2, hdel, applyOp, muMapStore.Load, muMapStore.Store]
          · have hk2 : ¬ k = key := fun h => hk h.symm
            simp [latestStore, hl, hd2, hdel, applyOp, muMapStore.Load, muMapStore.Store,
              hk, hk2]
    | delete key =>
      have hdel : deletes (MapOp.delete key :: rest) k
          = (decide (key = k) || deletes rest k) := rfl
      cases hl : latestStore rest k with
      | some w => simp [latestStore, hl]
      | none =>
        by_cases hd : deletes rest k = true
        · simp [latestStore, hl, hd, hdel]
        · have hd2 : deletes rest k = false := by simpa using hd
          by_cases hk : key = k
          · subst hk
            simp [latestStore, hl, hd2, hdel, applyOp, muMapStore.Load, muMapStore.Delete]
          · have hk2 : ¬ k = key := fun h => hk h.symm
            simp [latestStore, hl, hd2, hdel, applyOp, muMapStore.Load, muMapStore.Delete,
              hk, hk2]

/-- C15. The map store is a finite map from string keys to values. After any sequence
of `Store` and `Delete` calls on a new store, `Load(k)` finds the value of the most
recent `Store(k, v)` not followed by a `Delete(k)`, and finds nothing when there is
no such call. `Store(key, v)` and `Delete(key)` leave the result of `Load` on every
other key as it was, and a `Delete` of an absent key leaves the store as it was. -/
theorem muMapStore_finite_map {α : Type} (ops : List (MapOp α)) (k : String) :
    (applyOps muMapStore.empty ops).Load k = latestStore ops k
    ∧ (∀ (s : muMapStore α) (key : String) (v : α) (other : String), other ≠ key →
        (s.Store key v).Load other = s.Load other)
    ∧ (∀ (s : muMapStore α) (key other : String), other ≠ key →
        (s.Delete key).Load other = s.Load other)
    ∧ (∀ (s : muMapStore α) (key : String), s.Load key = none → s.Delete key = s) := by
  refine ⟨?_, ?_, ?_, ?_⟩
  · rw [Load_applyOps]
    cases latestStore ops k with
    | some v => rfl
    | none => simp [muMapStore.Load, muMapStore.empty]
  · intro s key v other h
    exact Load_Store_other s key other v h
  · intro s key other h
    simp [muMapStore.Load, muMapStore.Delete, h]
  · intro s key h
    cases s with
    | mk f =>
      simp only [muMapStore.Delete, muMapStore.mk.injEq]
      funext x
      by_cases hx : x = key
      · subst hx
        simp only [if_true]
        exact h.symm
      · simp [hx]

/-- C15 on a short run: `a` is stored twice and then deleted, `b` is stored, deleted
and stored again; `a` is not found, `b` loads its last value, and `c`, never
written, is not found. -/
theorem muMapStore_finite_map_witness :
    (applyOps muMapStore.empty
        [MapOp.store "a" 1, .store "b" 2, .store "a" 3, .delete "a", .delete "b",
          .store "b" 4]).Load "a" = none
    ∧ (applyOps muMapStore.empty
        [MapOp.store "a" 1, .store "b" 2, .store "a" 3, .delete "a", .delete "b",
          .store "b" 4]).Load "b" = some 4
    ∧ latestStore [MapOp.store "a" 1, .store "b" 2, .store "a" 3, .delete "a", .delete "b",
          .store "b" 4] "c" = none :=
  ⟨((muMapStore_finite_map [MapOp.store "a" 1, .store "b" 2, .store "a" 3, .delete "a",
      .delete "b", .store "b" 4] "a").1).trans (by decide),
    ((muMapStore_finite_map [MapOp.store "a" 1, .store "b" 2, .store "a" 3, .delete "a",
      .delete "b", .store "b" 4] "b").1).trans (by decide),
    by decide⟩

/-! ## The HTTP handlers -/

/-- C16. For the booking handler and for the class handler: the response is status
200 with `success` true exactly when the body binds and the service returns no
error; when the service returns an error the response is status 400 with `success`
false and the text of that error as message; when the body does not bind the
response is status 400 with `success` false and the text of `ErrUnmarshalling` as
message, and the service is not called: its state, whatever it is, comes back as
it was. -/
theorem handler_outcomes {β γ ε σ : Type}
    (bindBooking : β → Except ε BookingInfo) (bindClass : γ → Except ε Class)
    (bookingService : BookingInfo → σ → Option Error × σ)
    (classService : Class → σ → Option Error × σ)
    (parseText : ParseError → String) (BookingSucces ClassSuccess : String)
    (bookingBody : β) (classBody : γ) (st : σ) :
    ((((bookingHandler.CreateBooking bindBooking bookingService parseText BookingSucces
            bookingBody st).1.1 = 200
          ∧ (bookingHandler.CreateBooking bindBooking bookingService parseText BookingSucces
            bookingBody st).1.2.Success = true)
        ↔ ∃ bookingInfo, bindBooking bookingBody = .ok bookingInfo
            ∧ (bookingService bookingInfo st).1 = none)
      ∧ (∀ bookingInfo e, bindBooking bookingBody = .ok bookingInfo →
          (bookingService bookingInfo st).1 = some e →
          (bookingHandler.CreateBooking bindBooking bookingService parseText BookingSucces
            bookingBody st).1 = (400, ⟨false, errorText parseText e, ""⟩))
      ∧ (∀ bindErr, bindBooking bookingBody = .error bindErr →
          bookingHandler.CreateBooking bindBooking bookingService parseText BookingSucces
            bookingBody st = ((400, ⟨false, "error while unamrshalling", ""⟩), st)))
    ∧ ((((classHandler.CreateClass bindClass classService parseText ClassSuccess
            classBody st).1.1 = 200
          ∧ (classHandler.CreateClass bindClass classService parseText ClassSuccess
            classBody st).1.2.Success = true)
        ↔ ∃ classData, bindClass classBody = .ok classData
            ∧ (classService classData st).1 = none)
      ∧ (∀ classData e, bindClass classBody = .ok classData →
          (classService classData st).1 = some e →
          (classHandler.CreateClass bindClass classService parseText ClassSuccess
            classBody st).1 = (400, ⟨false, errorText parseText e, ""⟩))
      ∧ (∀ bindErr, bindClass classBody = .error bindErr →
          classHandler.CreateClass bindClass classService parseText ClassSuccess
            classBody st = ((400, ⟨false, "error while unamrshalling", ""⟩), st))) := by
  constructor
  · unfold bookingHandler.CreateBooking
    cases hb : bindBooking bookingBody with
    | error bindErr =>
      simp [StatusBadRequest, CreateResp, errorText]
    | ok bookingInfo =>
      rcases hsv : bookingService bookingInfo st with ⟨res, st1⟩
      cases res with
      | none =>
        simp only [hsv, StatusOK, StatusBadRequest, CreateResp]
        simp
        refine ⟨by rw [hsv], ?_⟩
        intro info1 e1 h1 h2
        subst h1
        rw [hsv] at h2
        exact absurd h2 (by simp)
      | some e =>
        simp only [hsv, StatusOK, StatusBadRequest, CreateResp]
        simp
        refine ⟨by rw [hsv]; simp, ?_⟩
        intro info1 e1 h1 h2
        subst h1
        rw [hsv] at h2
        simp only [Option.some.injEq] at h2
        rw [h2]
  · unfold classHandler.CreateClass
    cases hb : bindClass classBody with
    | error bindErr =>
      simp [StatusBadRequest, CreateResp, errorText]
    | ok classData =>
      rcases hsv : classService classData st with ⟨res, st1⟩
      cases res with
      | none =>
        simp only [hsv, StatusOK, StatusBadRequest, CreateResp]
        simp
        refine ⟨by rw [hsv], ?_⟩
        intro info1 e1 h1 h2
        subst h1
        rw [hsv] at h2
        exact absurd h2 (by simp)
      | some e =>
        simp only [hsv, StatusOK, StatusBadRequest, CreateResp]
        simp
        refine ⟨by rw [hsv]; simp, ?_⟩
        intro info1 e1 h1 h2
        subst h1
        rw [hsv] at h2
        simp only [Option.some.injEq] at h2
        rw [h2]

/-- C16 at three requests on a store that holds the class `YogaClass`: a booking
into the class `Ghost` is answered with status 400 and the text of
`ErrClassNotExist`; a malformed class body is answered with status 400 and the text
of `ErrUnmarshalling`, the store being left as it was; and the answer to a booking
on June 5 has status 200 with `success` true, the body having bound and the service
having returned no error. -/
theorem handler_outcomes_witness :
    (bookingHandler.CreateBooking sampleBind (fun b s => CreateBooking sampleParse cfgDate s b)
        sampleParseText "booked" (some ⟨"Ghost", "john", "2025-06-05"⟩)
        (muMapStore.empty.Store "YogaClass" openRecord)).1
      = (400, ⟨false, "Please Check Your Class Name", ""⟩)
    ∧ classHandler.CreateClass sampleBind (fun c s => CreateClass sampleParse cfgDate s c)
        sampleParseText "created" none (muMapStore.empty.Store "YogaClass" openRecord)
      = ((400, ⟨false, "error while unamrshalling", ""⟩),
          muMapStore.empty.Store "YogaClass" openRecord)
    ∧ ((bookingHandler.CreateBooking sampleBind
          (fun b s => CreateBooking sampleParse cfgDate s b)
          sampleParseText "booked" (some ⟨"YogaClass", "john", "2025-06-05"⟩)
          (muMapStore.empty.Store "YogaClass" openRecord)).1.1 = 200
        ∧ (bookingHandler.CreateBooking sampleBind
          (fun b s => CreateBooking sampleParse cfgDate s b)
          sampleParseText "booked" (some ⟨"YogaClass", "john", "2025-06-05"⟩)
          (muMapStore.empty.Store "YogaClass" openRecord)).1.2.Success = true) :=
  ⟨(handler_outcomes sampleBind sampleBind
      (fun b s => CreateBooking sampleParse cfgDate s b)
      (fun c s => CreateClass sampleParse cfgDate s c) sampleParseText "booked" "created"
      (some ⟨"Ghost", "john", "2025-06-05"⟩) (none : Option Class)
      (muMapStore.empty.Store "YogaClass" openRecord)).1.2.1
      ⟨"Ghost", "john", "2025-06-05"⟩ .ErrClassNotExist rfl (by decide),
    (handler_outcomes sampleBind sampleBind
      (fun b s => CreateBooking sampleParse cfgDate s b)
      (fun c s => CreateClass sampleParse cfgDate s c) sampleParseText "booked" "created"
      (some ⟨"Ghost", "john", "2025-06-05"⟩) (none : Option Class)
      (muMapStore.empty.Store "YogaClass" openRecord)).2.2.2 "unexpected EOF" rfl,
    (handler_outcomes sampleBind sampleBind
      (fun b s => CreateBooking sampleParse cfgDate s b)
      (fun c s => CreateClass sampleParse cfgDate s c) sampleParseText "booked" "created"
      (some ⟨"YogaClass", "john", "2025-06-05"⟩) (none : Option Class)
      (muMapStore.empty.Store "YogaClass" openRecord)).1.1.mpr
      ⟨⟨"YogaClass", "john", "2025-06-05"⟩, rfl, by decide⟩⟩

/-! ## The frame of a booking and the window invariant -/

/-- C18. A `CreateBooking` on class `c` whose date parses to `d` and that returns no
error found a record under `c` and leaves under `c` a record with the same
`AllowedCapacity`, `StartDate` and `EndDate` and the same `Bookings` on every date
other than `d`; every other class name loads what it loaded before, and a key is in
the store afterwards exactly when it was before. -/
theorem CreateBooking_frame (parse : String → String → Except ParseError Time)
    (cfg : Config) (syMap : muMapStore ClassInfo) (bookingInfo : BookingInfo) (d : Time)
    (hparse : parse cfg.DateFormat bookingInfo.BookingDate = .ok d)
    (hok : (CreateBooking parse cfg syMap bookingInfo).1 = none) :
    (∃ r r1, syMap.Load bookingInfo.ClassName = some r
        ∧ (CreateBooking parse cfg syMap bookingInfo).2.Load bookingInfo.ClassName = some r1
        ∧ r1.AllowedCapacity = r.AllowedCapacity
        ∧ r1.StartDate = r.StartDate ∧ r1.EndDate = r.EndDate
        ∧ (∀ d1, d1 ≠ d → r1.Bookings d1 = r.Bookings d1))
    ∧ (∀ k, k ≠ bookingInfo.ClassName →
        (CreateBooking parse cfg syMap bookingInfo).2.Load k = syMap.Load k)
    ∧ (∀ k, ((CreateBooking parse cfg syMap bookingInfo).2.Load k).isSome
        = (syMap.Load k).isSome) := by
  cases hl : syMap.Load bookingInfo.ClassName with
  | none =>
    unfold CreateBooking at hok
    simp [hparse, hl] at hok
  | some r =>
    rw [CreateBooking_eq parse cfg syMap bookingInfo r d hparse hl] at hok ⊢
    by_cases h1 : d.ns < r.StartDate.ns
    · simp [h1] at hok
    · by_cases h2 : r.EndDate.ns < d.ns
      · simp [h1, h2] at hok
      · by_cases h3 : r.AllowedCapacity ≤ ((r.Bookings d).length : Int)
        · simp [h1, h2, h3] at hok
        · rw [if_neg h1, if_neg h2, if_neg h3]
          refine ⟨⟨r, _, rfl, Load_Store_same _ _ _, rfl, rfl, rfl, ?_⟩, ?_, ?_⟩
          · intro d1 hd1
            simp [setBookings, hd1]
          · intro k hk
            exact Load_Store_other _ _ _ _ hk
          · intro k
            by_cases hk : k = bookingInfo.ClassName
            · subst hk
              rw [Load_Store_same, hl]
              rfl
            · rw [Load_Store_other _ _ _ _ hk]

/-- C18 at a booking of `john` on June 5 into a class that holds `existing_user` on
that day: the capacity stays 5, June 1 still holds nobody, and the class `Ghost` is
still absent. -/
theorem CreateBooking_frame_witness :
    (∃ r1, (CreateBooking sampleParse cfgDate (muMapStore.empty.Store "YogaClass" openRecord)
          ⟨"YogaClass", "john", "2025-06-05"⟩).2.Load "YogaClass" = some r1
        ∧ r1.AllowedCapacity = 5 ∧ r1.Bookings (Date 2025 6 1 0 0) = [])
    ∧ (CreateBooking sampleParse cfgDate (muMapStore.empty.Store "YogaClass" openRecord)
        ⟨"YogaClass", "john", "2025-06-05"⟩).2.Load "Ghost" = none :=
  have h := CreateBooking_frame sampleParse cfgDate
    (muMapStore.empty.Store "YogaClass" openRecord) ⟨"YogaClass", "john", "2025-06-05"⟩
    (Date 2025 6 5 0 0) rfl (by decide)
  ⟨h.1.elim fun r hr => hr.elim fun r1 hr1 =>
      ⟨r1, hr1.2.1,
        hr1.2.2.1.trans (congrArg ClassInfo.AllowedCapacity (Option.some.inj hr1.1).symm),
        (hr1.2.2.2.2.2 (Date 2025 6 1 0 0) (by decide)).trans
          (congrArg (fun x => x.Bookings (Date 2025 6 1 0 0)) (Option.some.inj hr1.1).symm)⟩,
    (h.2.1 "Ghost" (by decide)).trans rfl⟩

/-- The empty store is within its windows. -/
theorem withinWindow_empty : withinWindow muMapStore.empty := by
  intro name r h
  simp [muMapStore.Load, muMapStore.empty] at h

/-- A `CreateClass` keeps the store within its windows: the record it stores holds
no booking. -/
theorem withinWindow_CreateClass (parse : String → String → Except ParseError Time)
    (cfg : Config) (syMap : muMapStore ClassInfo) (info : Class)
    (hinv : withinWindow syMap) :
    withinWindow (CreateClass parse cfg syMap info).2 := by
  rw [CreateClass_eq]
  cases hs : parse cfg.DateFormat info.StartDate with
  | error err => exact hinv
  | ok startDate =>
    cases he : parse cfg.DateFormat info.EndDate with
    | error err => exact hinv
    | ok endDate =>
      simp only []
      by_cases hlt : endDate.ns < startDate.ns
      · rw [if_pos hlt]; exact hinv
      · rw [if_neg hlt]
        intro name r hload d hne
        by_cases hn : name = info.Name
        · subst hn
          rw [Load_Store_same] at hload
          cases hload
          exact absurd rfl hne
        · rw [Load_Store_other _ _ _ _ hn] at hload
          exact hinv name r hload d hne

/-- A `CreateBooking` keeps the store within its windows: it appends only on a date
that passed both window checks. -/
theorem withinWindow_CreateBooking (parse : String → String → Except ParseError Time)
    (cfg : Config) (syMap : muMapStore ClassInfo) (bookingInfo : BookingInfo)
    (hinv : withinWindow syMap) :
    withinWindow (CreateBooking parse cfg syMap bookingInfo).2 := by
  cases hp : parse cfg.DateFormat bookingInfo.BookingDate with
  | error err => unfold CreateBooking; simp only [hp]; exact hinv
  | ok d =>
    cases hl : syMap.Load bookingInfo.ClassName with
    | none => unfold CreateBooking; simp only [hp, hl]; exact hinv
    | some r =>
      rw [CreateBooking_eq parse cfg syMap bookingInfo r d hp hl]
      by_cases h1 : d.ns < r.StartDate.ns
      · rw [if_pos h1]; exact hinv
      · by_cases h2 : r.EndDate.ns < d.ns
        · rw [if_neg h1, if_pos h2]; exact hinv
        · by_cases h3 : r.AllowedCapacity ≤ ((r.Bookings d).length : Int)
          · rw [if_neg h1, if_neg h2, if_pos h3]; exact hinv
          · rw [if_neg h1, if_neg h2, if_neg h3]
            intro name r1 hload d1 hne
            by_cases hn : name = bookingInfo.ClassName
            · subst hn
              rw [Load_Store_same] at hload
              cases hload
              by_cases hd : d1 = d
              · subst hd
                exact ⟨not_lt.mp h1, not_lt.mp h2⟩
              · simp only [setBookings, if_neg hd] at hne
                exact hinv _ r hl d1 hne
            · rw [Load_Store_other _ _ _ _ hn] at hload
              exact hinv name r1 hload d1 hne

/-- A sequence of calls keeps a store within its windows. -/
theorem withinWindow_runCalls (parse : String → String → Except ParseError Time)
    (cfg : Config) (calls : List Call) :
    ∀ syMap : muMapStore ClassInfo, withinWindow syMap →
      withinWindow (runCalls parse cfg syMap calls) := by
  induction calls with
  | nil => intro syMap hinv; exact hinv
  | cons c rest ih =>
    intro syMap hinv
    show withinWindow (runCalls parse cfg (applyCall parse cfg syMap c) rest)
    apply ih
    cases c with
    | createClass info => exact withinWindow_CreateClass parse cfg syMap info hinv
    | createBooking bookingInfo =>
      exact withinWindow_CreateBooking parse cfg syMap bookingInfo hinv

/-- C19. In the store reached from the empty store by any sequence of `CreateClass`
and `CreateBooking` calls, every stored record `r` and every date `d` on which
`r.Bookings` holds a name satisfy `r.StartDate <= d <= r.EndDate`, for the start and
end date stored on `r`. -/
theorem window_invariant (parse : String → String → Except ParseError Time)
    (cfg : Config) (calls : List Call) (name : String) (r : ClassInfo)
    (hload : (runCalls parse cfg muMapStore.empty calls).Load name = some r) (d : Time)
    (hbooked : r.Bookings d ≠ []) :
    r.StartDate.ns ≤ d.ns ∧ d.ns ≤ r.EndDate.ns :=
  withinWindow_runCalls parse cfg calls muMapStore.empty withinWindow_empty name r hload d
    hbooked

/-- C19 on the run with a single slot: the record of `Yoga` holds `john` on June 5,
and June 5 lies between the stored start date, the zero time, and the stored end
date, June 10. -/
theorem window_invariant_witness :
    ∃ r, (runCalls sampleParse cfgDate muMapStore.empty sampleCalls).Load "Yoga" = some r
      ∧ r.Bookings (Date 2025 6 5 0 0) = ["john"]
      ∧ r.StartDate = Time.zero ∧ r.EndDate = Date 2025 6 10 0 0
      ∧ r.StartDate.ns ≤ (Date 2025 6 5 0 0).ns ∧ (Date 2025 6 5 0 0).ns ≤ r.EndDate.ns := by
  have hload : (runCalls sampleParse cfgDate muMapStore.empty sampleCalls).Load "Yoga"
      = some { AllowedCapacity := 1
               EndDate := Date 2025 6 10 0 0
               Bookings := setBookings (fun _ => []) (Date 2025 6 5 0 0) ["john"] } := by
    simp only [runCalls, sampleCalls, List.foldl, applyCall]
    rw [CreateClass_eq]
    rfl
  have h := window_invariant sampleParse cfgDate sampleCalls "Yoga" _ hload
    (Date 2025 6 5 0 0) (by decide)
  exact ⟨_, hload, rfl, rfl, rfl, h.1, h.2⟩

end Glofox
